import Mathlib

/-!
A shallow embedding of `src/hdf5_export.c` of hdf5-export.

The C functions of `hdf5_export.c` are embedded as Lean functions.

* The HDF5 library and libc are external: every call the code makes to them is
  recorded as a `Call` in a history, and the value a call returns is given by
  an arbitrary function `Lib` of the history so far and of the call.  Nothing is
  assumed about that function.
* The constants of `hdf5.h` and `unistd.h` are not part of the repository; they
  are the fields of `H5Consts`.
* `hid_t`, `htri_t`, `herr_t` and `int` values are `Int`; they are only compared
  with zero, and the conversions between these types in the code (an `htri_t`
  or `herr_t` stored in a `hid_t` and back) leave such a value unchanged.
  `size_t` values are `Nat`; a subtraction that would wrap around is a `Fault`,
  as is every access outside an allocated object.  A pointer returned by
  `malloc` is an `Int`, 0 for NULL.
* A C string is the list of its characters before the terminating NUL.
* Diagnostics written to `stderr` are not modelled.
-/

namespace HDF5Export

/-- HDF5 identifiers and status codes. -/
abbrev hid_t := Int

/-- The string terminator. -/
def NUL : Char := Char.ofNat 0

/-- Calls made to the HDF5 library and to libc, with their arguments. -/
inductive Call where
  | access (path : List Char) (mode : Nat)
  | H5Fopen (path : List Char) (flags : Nat) (fapl : hid_t)
  | H5Fcreate (path : List Char) (flags : Nat) (fcpl fapl : hid_t)
  | malloc (size : Nat)
  | free (ptr : Int)
  | H5Lexists (loc : hid_t) (name : List Char) (lapl : hid_t)
  | H5Ldelete (loc : hid_t) (name : List Char) (lapl : hid_t)
  | H5Pcreate (cls : hid_t)
  | H5Pset_create_intermediate_group (plist : hid_t) (flag : Nat)
  | H5Screate_simple (rank : Int) (dims : List Nat)
  | H5Dcreate2 (loc : hid_t) (name : List Char) (dtype space lcpl dcpl dapl : hid_t)
  | H5Sclose (id : hid_t)
  | H5Pclose (id : hid_t)
  | H5Dwrite (dset mem_type mem_space file_space xfer : hid_t) (buf : Nat)
  | H5Dclose (id : hid_t)
  | H5Fclose (id : hid_t)
  deriving DecidableEq, Repr

/-- The external world: the value returned by a call, given all earlier calls. -/
abbrev Lib := List Call → Call → Int

/-- Perform one external call: its result and the extended history. -/
def invoke (lib : Lib) (c : Call) (hist : List Call) : Int × List Call :=
  (lib hist c, hist ++ [c])

/-- Constants of `hdf5.h` and `unistd.h` used by the code. -/
structure H5Consts where
  R_OK : Nat
  W_OK : Nat
  H5F_ACC_RDWR : Nat
  H5F_ACC_TRUNC : Nat
  H5P_DEFAULT : hid_t
  H5S_ALL : hid_t
  H5P_LINK_CREATE : hid_t
  H5T_STD_I8BE : hid_t
  H5T_STD_I8LE : hid_t
  H5T_STD_U8BE : hid_t
  H5T_STD_U8LE : hid_t
  H5T_STD_I16BE : hid_t
  H5T_STD_I16LE : hid_t
  H5T_STD_U16BE : hid_t
  H5T_STD_U16LE : hid_t
  H5T_STD_I32BE : hid_t
  H5T_STD_I32LE : hid_t
  H5T_STD_U32BE : hid_t
  H5T_STD_U32LE : hid_t
  H5T_STD_I64BE : hid_t
  H5T_STD_I64LE : hid_t
  H5T_STD_U64BE : hid_t
  H5T_STD_U64LE : hid_t
  H5T_IEEE_F32BE : hid_t
  H5T_IEEE_F32LE : hid_t
  H5T_IEEE_F64BE : hid_t
  H5T_IEEE_F64LE : hid_t
  H5T_NATIVE_INT8 : hid_t
  H5T_NATIVE_UINT8 : hid_t
  H5T_NATIVE_INT16 : hid_t
  H5T_NATIVE_UINT16 : hid_t
  H5T_NATIVE_INT32 : hid_t
  H5T_NATIVE_UINT32 : hid_t
  H5T_NATIVE_INT64 : hid_t
  H5T_NATIVE_UINT64 : hid_t
  H5T_NATIVE_FLOAT : hid_t
  H5T_NATIVE_DOUBLE : hid_t

/-! ## Memory -/

/-- Undefined behaviour the model can detect, and exhaustion of the loop fuel. -/
inductive Fault where
  | out_of_bounds
  | uninitialised_read
  | wraparound
  | out_of_fuel
  deriving DecidableEq, Repr

/-- A heap buffer: one cell per byte, `none` while the byte is indeterminate. -/
abbrev Buffer := List (Option Char)

/-- Subtraction of `size_t` values; the model faults where C would wrap around. -/
def size_sub (a b : Nat) : Except Fault Nat :=
  if b ≤ a then .ok (a - b) else .error .wraparound

/-- Scan for `c` in a character list; `i` is the offset of the head of the list. -/
def scan_char (c : Char) : List Char → Nat → Option Nat
  | [], _ => none
  | x :: xs, i => if x = c then some i else scan_char c xs (i + 1)

/-- The call `strchr( name + start, c )` for `c` other than NUL: the offset from
`name` of the first `c` at or after `start`, `none` for a NULL result. -/
def strchr (name : List Char) (start : Nat) (c : Char) : Except Fault (Option Nat) :=
  if start ≤ name.length then .ok (scan_char c (name.drop start) start)
  else .error .out_of_bounds

/-- The call `memcpy( dst + doff, src + soff, n )`, where `src` is a C string (its
object is the characters and the terminating NUL). -/
def memcpy (dst : Buffer) (doff : Nat) (src : List Char) (soff n : Nat) :
    Except Fault Buffer :=
  if doff + n ≤ dst.length ∧ soff + n ≤ src.length + 1 then
    .ok (dst.take doff ++ (((src ++ [NUL]).drop soff).take n).map some ++ dst.drop (doff + n))
  else .error .out_of_bounds

/-- The assignment `buf[i] = c`. -/
def store (buf : Buffer) (i : Nat) (c : Char) : Except Fault Buffer :=
  if i < buf.length then .ok (buf.set i (some c)) else .error .out_of_bounds

/-- The C string a callee reads from a buffer: the bytes before the first NUL. -/
def read_cstr : Buffer → Except Fault (List Char)
  | [] => .error .out_of_bounds
  | none :: _ => .error .uninitialised_read
  | some c :: rest =>
    if c = NUL then .ok []
    else match read_cstr rest with
      | .ok s => .ok (c :: s)
      | .error e => .error e

/-! ## `open_file` -/

/-- Source `open_file`, lines 35-56. -/
def open_file (K : H5Consts) (lib : Lib) (file_path : List Char) (hist : List Call) :
    hid_t × List Call :=
  let (r, hist) := invoke lib (.access file_path (K.R_OK ||| K.W_OK)) hist
  let file_exists_flag : Bool := decide (r = 0)
  if file_exists_flag then
    invoke lib (.H5Fopen file_path K.H5F_ACC_RDWR K.H5P_DEFAULT) hist
  else
    invoke lib (.H5Fcreate file_path K.H5F_ACC_TRUNC K.H5P_DEFAULT K.H5P_DEFAULT) hist

/-! ## `H5Lexists_wrapper` -/

/-- The local variables of `H5Lexists_wrapper` that change in its loop, and the
call history. -/
structure LoopState where
  status : hid_t
  temp_name : Buffer
  slash_position : Option Nat
  name_index : Nat
  component_length : Nat
  hist : List Call
  deriving DecidableEq, Repr

/-- One execution of the body of the `do ... while` loop, lines 95-123, up to
the assignment of `status`. -/
def loop_body (lib : Lib) (location_id : hid_t) (name : List Char) (lapl_id : hid_t)
    (total_length : Nat) (s : LoopState) : Except Fault LoopState := do
  let slash_position ← strchr name s.name_index '/'
  let component_length ← match slash_position with
    | none => size_sub total_length s.name_index
    | some p => (size_sub p s.name_index).map (· + 1)
  let temp_name ← memcpy s.temp_name s.name_index name s.name_index component_length
  let temp_name ← store temp_name (s.name_index + component_length) NUL
  let name_index := s.name_index + component_length
  let checked ← read_cstr temp_name
  let (status, hist) := invoke lib (.H5Lexists location_id checked lapl_id) s.hist
  pure { status := status, temp_name := temp_name, slash_position := slash_position,
         name_index := name_index, component_length := component_length, hist := hist }

/-- The `do ... while` loop, lines 94-124: the body, then `break` on a negative
status, then the test `NULL != slash_position`. -/
def loop (lib : Lib) (location_id : hid_t) (name : List Char) (lapl_id : hid_t)
    (total_length : Nat) : Nat → LoopState → Except Fault LoopState
  | 0, _ => .error .out_of_fuel
  | fuel + 1, s => do
    let s ← loop_body lib location_id name lapl_id total_length s
    if s.status < 0 then pure s
    else if s.slash_position.isSome then loop lib location_id name lapl_id total_length fuel s
    else pure s

/-- The state on entry to the loop, after a successful `malloc`. -/
def loop_entry (total_length : Nat) (hist : List Call) : LoopState :=
  { status := -1, temp_name := List.replicate (total_length + 1) none,
    slash_position := none, name_index := 0, component_length := 0, hist := hist }

/-- Source `H5Lexists_wrapper`, lines 61-129.  The loop is given `total_length + 1`
units of fuel. -/
def H5Lexists_wrapper (lib : Lib) (location_id : hid_t) (name : List Char) (lapl_id : hid_t)
    (hist : List Call) : Except Fault (hid_t × List Call) := do
  let total_length := name.length
  let (temp_ptr, hist) := invoke lib (.malloc (total_length + 1)) hist
  if temp_ptr = 0 then pure (-1, hist)
  else
    let s ← loop lib location_id name lapl_id total_length (total_length + 1)
      (loop_entry total_length hist)
    pure (s.status, s.hist ++ [Call.free temp_ptr])

/-! ## `open_dataset` -/

/-- Lines 170-204 of `open_dataset`: what follows the optional deletion. -/
def open_dataset_create (K : H5Consts) (lib : Lib) (file_id : hid_t) (data_path : List Char)
    (data_type : hid_t) (number_dimensions : Int) (dimensions : List Nat)
    (hist : List Call) : hid_t × List Call :=
  let (lcpl_list, hist) := invoke lib (.H5Pcreate K.H5P_LINK_CREATE) hist
  let (_, hist) := invoke lib (.H5Pset_create_intermediate_group lcpl_list 1) hist
  let (dataspace_id, hist) := invoke lib (.H5Screate_simple number_dimensions dimensions) hist
  if dataspace_id < 0 then (-1, hist)
  else
    let (dataset_id, hist) := invoke lib
      (.H5Dcreate2 file_id data_path data_type dataspace_id lcpl_list K.H5P_DEFAULT K.H5P_DEFAULT)
      hist
    if dataset_id < 0 then (-1, hist)
    else
      let (_, hist) := invoke lib (.H5Sclose dataspace_id) hist
      let (_, hist) := invoke lib (.H5Pclose lcpl_list) hist
      (dataset_id, hist)

/-- Source `open_dataset`, lines 134-205. -/
def open_dataset (K : H5Consts) (lib : Lib) (file_id : hid_t) (data_path : List Char)
    (data_type : hid_t) (number_dimensions : Int) (dimensions : List Nat)
    (hist : List Call) : Except Fault (hid_t × List Call) := do
  let (status, hist) ← H5Lexists_wrapper lib file_id data_path K.H5P_DEFAULT hist
  if status < 0 then pure (-1, hist)
  else if status > 0 then
    let (status, hist) := invoke lib (.H5Ldelete file_id data_path K.H5P_DEFAULT) hist
    if status < 0 then pure (-1, hist)
    else pure (open_dataset_create K lib file_id data_path data_type number_dimensions
      dimensions hist)
  else pure (open_dataset_create K lib file_id data_path data_type number_dimensions
    dimensions hist)

/-! ## `lookup_native_data_type` and `write_dataset` -/

/-- Source `lookup_native_data_type`, lines 208-253. -/
def lookup_native_data_type (K : H5Consts) (data_type : hid_t) : hid_t :=
  if data_type = K.H5T_STD_I8BE ∨ data_type = K.H5T_STD_I8LE then K.H5T_NATIVE_INT8
  else if data_type = K.H5T_STD_U8BE ∨ data_type = K.H5T_STD_U8LE then K.H5T_NATIVE_UINT8
  else if data_type = K.H5T_STD_I16BE ∨ data_type = K.H5T_STD_I16LE then K.H5T_NATIVE_INT16
  else if data_type = K.H5T_STD_U16BE ∨ data_type = K.H5T_STD_U16LE then K.H5T_NATIVE_UINT16
  else if data_type = K.H5T_STD_I32BE ∨ data_type = K.H5T_STD_I32LE then K.H5T_NATIVE_INT32
  else if data_type = K.H5T_STD_U32BE ∨ data_type = K.H5T_STD_U32LE then K.H5T_NATIVE_UINT32
  else if data_type = K.H5T_STD_I64BE ∨ data_type = K.H5T_STD_I64LE then K.H5T_NATIVE_INT64
  else if data_type = K.H5T_STD_U64BE ∨ data_type = K.H5T_STD_U64LE then K.H5T_NATIVE_UINT64
  else if data_type = K.H5T_IEEE_F32BE ∨ data_type = K.H5T_IEEE_F32LE then K.H5T_NATIVE_FLOAT
  else if data_type = K.H5T_IEEE_F64BE ∨ data_type = K.H5T_IEEE_F64LE then K.H5T_NATIVE_DOUBLE
  else data_type

/-- Source `write_dataset`, lines 258-279; `data` is the address of the buffer. -/
def write_dataset (K : H5Consts) (lib : Lib) (dataset_id data_type : hid_t) (data : Nat)
    (hist : List Call) : Int × List Call :=
  let native_data_type := lookup_native_data_type K data_type
  let (status, hist) := invoke lib
    (.H5Dwrite dataset_id native_data_type K.H5S_ALL K.H5S_ALL K.H5P_DEFAULT data) hist
  if status < 0 then (-1, hist) else (0, hist)

/-! ## `export_data` and the public interface -/

/-- Source `export_data`, lines 285-310. -/
def export_data (K : H5Consts) (lib : Lib) (file_path data_path : List Char) (data : Nat)
    (data_type : hid_t) (number_dimensions : Int) (dimensions : List Nat)
    (hist : List Call) : Except Fault (Int × List Call) := do
  let (file_id, hist) := open_file K lib file_path hist
  if file_id < 0 then pure (-1, hist)
  else
    let (dataset_id, hist) ← open_dataset K lib file_id data_path data_type
      number_dimensions dimensions hist
    if dataset_id < 0 then pure (-1, hist)
    else
      let (written, hist) := write_dataset K lib dataset_id data_type data hist
      if written < 0 then pure (-1, hist)
      else
        let (_, hist) := invoke lib (.H5Dclose dataset_id) hist
        let (_, hist) := invoke lib (.H5Fclose file_id) hist
        pure (0, hist)

/-- Conversion of an `int` to `hsize_t`, an unsigned 64-bit integer. -/
def to_hsize (x : Int) : Nat := (x % 2 ^ 64).toNat

/-- Source `h5_export_vector_i32`, lines 315-321. -/
def h5_export_vector_i32 (K : H5Consts) (lib : Lib) (file_path data_path : List Char)
    (data : Nat) (dim1_length : Int) (hist : List Call) : Except Fault (Int × List Call) :=
  export_data K lib file_path data_path data K.H5T_STD_I32LE 1 [to_hsize dim1_length] hist

/-- Source `h5_export_matrix_i32`, lines 323-329. -/
def h5_export_matrix_i32 (K : H5Consts) (lib : Lib) (file_path data_path : List Char)
    (data : Nat) (dim1_length dim2_length : Int) (hist : List Call) :
    Except Fault (Int × List Call) :=
  export_data K lib file_path data_path data K.H5T_STD_I32LE 2
    [to_hsize dim1_length, to_hsize dim2_length] hist

/-- Source `h5_export_volume_i32`, lines 331-337. -/
def h5_export_volume_i32 (K : H5Consts) (lib : Lib) (file_path data_path : List Char)
    (data : Nat) (dim1_length dim2_length dim3_length : Int) (hist : List Call) :
    Except Fault (Int × List Call) :=
  export_data K lib file_path data_path data K.H5T_STD_I32LE 3
    [to_hsize dim1_length, to_hsize dim2_length, to_hsize dim3_length] hist

/-- Source `h5_export_vector_f32`, lines 340-346. -/
def h5_export_vector_f32 (K : H5Consts) (lib : Lib) (file_path data_path : List Char)
    (data : Nat) (dim1_length : Int) (hist : List Call) : Except Fault (Int × List Call) :=
  export_data K lib file_path data_path data K.H5T_IEEE_F32LE 1 [to_hsize dim1_length] hist

/-- Source `h5_export_matrix_f32`, lines 348-354. -/
def h5_export_matrix_f32 (K : H5Consts) (lib : Lib) (file_path data_path : List Char)
    (data : Nat) (dim1_length dim2_length : Int) (hist : List Call) :
    Except Fault (Int × List Call) :=
  export_data K lib file_path data_path data K.H5T_IEEE_F32LE 2
    [to_hsize dim1_length, to_hsize dim2_length] hist

/-- Source `h5_export_volume_f32`, lines 356-362. -/
def h5_export_volume_f32 (K : H5Consts) (lib : Lib) (file_path data_path : List Char)
    (data : Nat) (dim1_length dim2_length dim3_length : Int) (hist : List Call) :
    Except Fault (Int × List Call) :=
  export_data K lib file_path data_path data K.H5T_IEEE_F32LE 3
    [to_hsize dim1_length, to_hsize dim2_length, to_hsize dim3_length] hist

/-- Source `h5_export_vector_f64`, lines 365-371. -/
def h5_export_vector_f64 (K : H5Consts) (lib : Lib) (file_path data_path : List Char)
    (data : Nat) (dim1_length : Int) (hist : List Call) : Except Fault (Int × List Call) :=
  export_data K lib file_path data_path data K.H5T_IEEE_F64LE 1 [to_hsize dim1_length] hist

/-- Source `h5_export_matrix_f64`, lines 373-379. -/
def h5_export_matrix_f64 (K : H5Consts) (lib : Lib) (file_path data_path : List Char)
    (data : Nat) (dim1_length dim2_length : Int) (hist : List Call) :
    Except Fault (Int × List Call) :=
  export_data K lib file_path data_path data K.H5T_IEEE_F64LE 2
    [to_hsize dim1_length, to_hsize dim2_length] hist

/-- Source `h5_export_volume_f64`, lines 381-387. -/
def h5_export_volume_f64 (K : H5Consts) (lib : Lib) (file_path data_path : List Char)
    (data : Nat) (dim1_length dim2_length dim3_length : Int) (hist : List Call) :
    Except Fault (Int × List Call) :=
  export_data K lib file_path data_path data K.H5T_IEEE_F64LE 3
    [to_hsize dim1_length, to_hsize dim2_length, to_hsize dim3_length] hist

/-! ## Reference definitions used to state the properties -/

/-- The C string stored in a character sequence: what precedes the first NUL. -/
def cstr (s : List Char) : List Char := s.takeWhile (fun c => decide (c ≠ NUL))

/-- Heads of `done ++ rest` that end at a `/` of `rest`, shortest first. -/
def heads_from : List Char → List Char → List (List Char)
  | _, [] => []
  | done, c :: rest =>
    if c = '/' then (done ++ [c]) :: heads_from (done ++ [c]) rest
    else heads_from (done ++ [c]) rest

/-- Successive existence checks of the given strings, stopping after the first
negative answer; the status is that of the last check made. -/
def run_checks (lib : Lib) (location_id lapl_id : hid_t) :
    List (List Char) → hid_t → List Call → hid_t × List Call
  | [], status, hist => (status, hist)
  | s :: rest, _, hist =>
    let (status, hist) := invoke lib (.H5Lexists location_id s lapl_id) hist
    if status < 0 then (status, hist) else run_checks lib location_id lapl_id rest status hist

/-- The heads of a path that end at a `/`, in order of increasing length. -/
def slash_heads (name : List Char) : List (List Char) :=
  ((List.range name.length).filter (fun i => decide (name[i]? = some '/'))).map
    (fun i => name.take (i + 1))

/-- The strings passed to `H5Lexists` in a list of calls, in order. -/
def checked_strings (calls : List Call) : List (List Char) :=
  calls.filterMap (fun c => match c with
    | .H5Lexists _ s _ => some s
    | _ => none)

/-- The states in which the body of the loop of `H5Lexists_wrapper` is entered
during a call that starts from history `hist`: the entry state, and every state
the body produces that passes both the `break` test and the `while` test. -/
inductive AtLoopHead (lib : Lib) (location_id : hid_t) (name : List Char) (lapl_id : hid_t)
    (hist : List Call) : LoopState → Prop where
  | entry : AtLoopHead lib location_id name lapl_id hist (loop_entry name.length hist)
  | again (s t : LoopState) : AtLoopHead lib location_id name lapl_id hist s →
      loop_body lib location_id name lapl_id name.length s = .ok t →
      ¬ t.status < 0 → t.slash_position.isSome = true →
      AtLoopHead lib location_id name lapl_id hist t

/-- The reference table of the type mapper: each standard on-disk tag with the
native tag of the same width and signedness or float-ness. -/
def native_type_table (K : H5Consts) : List (hid_t × hid_t) :=
  [ (K.H5T_STD_I8BE, K.H5T_NATIVE_INT8), (K.H5T_STD_I8LE, K.H5T_NATIVE_INT8),
    (K.H5T_STD_U8BE, K.H5T_NATIVE_UINT8), (K.H5T_STD_U8LE, K.H5T_NATIVE_UINT8),
    (K.H5T_STD_I16BE, K.H5T_NATIVE_INT16), (K.H5T_STD_I16LE, K.H5T_NATIVE_INT16),
    (K.H5T_STD_U16BE, K.H5T_NATIVE_UINT16), (K.H5T_STD_U16LE, K.H5T_NATIVE_UINT16),
    (K.H5T_STD_I32BE, K.H5T_NATIVE_INT32), (K.H5T_STD_I32LE, K.H5T_NATIVE_INT32),
    (K.H5T_STD_U32BE, K.H5T_NATIVE_UINT32), (K.H5T_STD_U32LE, K.H5T_NATIVE_UINT32),
    (K.H5T_STD_I64BE, K.H5T_NATIVE_INT64), (K.H5T_STD_I64LE, K.H5T_NATIVE_INT64),
    (K.H5T_STD_U64BE, K.H5T_NATIVE_UINT64), (K.H5T_STD_U64LE, K.H5T_NATIVE_UINT64),
    (K.H5T_IEEE_F32BE, K.H5T_NATIVE_FLOAT), (K.H5T_IEEE_F32LE, K.H5T_NATIVE_FLOAT),
    (K.H5T_IEEE_F64BE, K.H5T_NATIVE_DOUBLE), (K.H5T_IEEE_F64LE, K.H5T_NATIVE_DOUBLE) ]

/-- The 20 standard on-disk tags. -/
def standard_tags (K : H5Consts) : List hid_t := (native_type_table K).map Prod.fst

/-- The 10 native tags. -/
def native_tags (K : H5Consts) : List hid_t :=
  [ K.H5T_NATIVE_INT8, K.H5T_NATIVE_UINT8, K.H5T_NATIVE_INT16, K.H5T_NATIVE_UINT16,
    K.H5T_NATIVE_INT32, K.H5T_NATIVE_UINT32, K.H5T_NATIVE_INT64, K.H5T_NATIVE_UINT64,
    K.H5T_NATIVE_FLOAT, K.H5T_NATIVE_DOUBLE ]

/-- Lookup in the reference table, with the tag itself as default. -/
def table_lookup (K : H5Consts) (t : hid_t) : hid_t :=
  ((native_type_table K).lookup t).getD t

/-- Calls that remove a link. -/
def is_delete : Call → Bool
  | .H5Ldelete _ _ _ => true
  | _ => false

/-- Calls that create a dataset. -/
def is_dataset_create : Call → Bool
  | .H5Dcreate2 _ _ _ _ _ _ _ => true
  | _ => false

/-- Calls that close a dataset handle or a file handle. -/
def is_close : Call → Bool
  | .H5Dclose _ => true
  | .H5Fclose _ => true
  | _ => false

/-- The calls `H5Lexists_wrapper` can make. -/
def is_wrapper_call : Call → Bool
  | .malloc _ => true
  | .H5Lexists _ _ _ => true
  | .free _ => true
  | _ => false

/-! ## Concrete environments used to evaluate the code -/

/-- Constants numbered consecutively; all type tags are distinct. -/
def demoConsts : H5Consts :=
  { R_OK := 4, W_OK := 2, H5F_ACC_RDWR := 1, H5F_ACC_TRUNC := 2,
    H5P_DEFAULT := 0, H5S_ALL := 0, H5P_LINK_CREATE := 100,
    H5T_STD_I8BE := 1, H5T_STD_I8LE := 2, H5T_STD_U8BE := 3, H5T_STD_U8LE := 4,
    H5T_STD_I16BE := 5, H5T_STD_I16LE := 6, H5T_STD_U16BE := 7, H5T_STD_U16LE := 8,
    H5T_STD_I32BE := 9, H5T_STD_I32LE := 10, H5T_STD_U32BE := 11, H5T_STD_U32LE := 12,
    H5T_STD_I64BE := 13, H5T_STD_I64LE := 14, H5T_STD_U64BE := 15, H5T_STD_U64LE := 16,
    H5T_IEEE_F32BE := 17, H5T_IEEE_F32LE := 18, H5T_IEEE_F64BE := 19, H5T_IEEE_F64LE := 20,
    H5T_NATIVE_INT8 := 21, H5T_NATIVE_UINT8 := 22, H5T_NATIVE_INT16 := 23,
    H5T_NATIVE_UINT16 := 24, H5T_NATIVE_INT32 := 25, H5T_NATIVE_UINT32 := 26,
    H5T_NATIVE_INT64 := 27, H5T_NATIVE_UINT64 := 28, H5T_NATIVE_FLOAT := 29,
    H5T_NATIVE_DOUBLE := 30 }

/-- A library whose `H5Lexists` answers `f` on the checked string, whose `malloc`
returns `ptr`, and whose other calls return 1. -/
def oracleLib (f : List Char → Int) (ptr : Int) : Lib := fun _ c =>
  match c with
  | .H5Lexists _ s _ => f s
  | .malloc _ => ptr
  | _ => 1

/-- A library in which the calls selected by `bad` return -1 and all others 1. -/
def failLib (bad : Call → Bool) : Lib := fun _ c => if bad c then -1 else 1

/-- Selects the `H5Dwrite` calls. -/
def is_write : Call → Bool
  | .H5Dwrite _ _ _ _ _ _ => true
  | _ => false

/-! ## Memory operations and the scan of the path -/

theorem read_cstr_map (s : List Char) (tail : Buffer) :
    read_cstr (s.map some ++ some NUL :: tail) = .ok (cstr s) := by
  induction s with
  | nil => simp [read_cstr, cstr]
  | cons c s ih =>
    by_cases hc : c = NUL
    · simp [read_cstr, cstr, hc]
    · simp [read_cstr, cstr, hc] at ih ⊢
      rw [ih]

theorem scan_char_none (c : Char) (l : List Char) (i : Nat) :
    scan_char c l i = none ↔ c ∉ l := by
  induction l generalizing i with
  | nil => simp [scan_char]
  | cons x xs ih =>
    by_cases hx : x = c
    · simp [scan_char, hx]
    · simp [scan_char, hx, ih, Ne.symm hx]

theorem scan_char_found (c : Char) (mid rest : List Char) (i : Nat) (h : c ∉ mid) :
    scan_char c (mid ++ c :: rest) i = some (i + mid.length) := by
  induction mid generalizing i with
  | nil => simp [scan_char]
  | cons x xs ih =>
    simp at h
    simp [scan_char, Ne.symm h.1, ih (i + 1) h.2]
    omega

theorem heads_from_no_slash (done rest : List Char) (h : '/' ∉ rest) :
    heads_from done rest = [] := by
  induction rest generalizing done with
  | nil => simp [heads_from]
  | cons c rest ih =>
    simp at h
    simp [heads_from, Ne.symm h.1, ih _ h.2]

theorem heads_from_slash (done mid rest : List Char) (h : '/' ∉ mid) :
    heads_from done (mid ++ '/' :: rest)
      = (done ++ mid ++ ['/']) :: heads_from (done ++ mid ++ ['/']) rest := by
  induction mid generalizing done with
  | nil => simp [heads_from]
  | cons c mid ih =>
    simp at h
    simp [heads_from, Ne.symm h.1]
    have := ih (done ++ [c]) h.2
    simpa using this

theorem memcpy_spec (done mid rest : List Char) (tail : Buffer) (h : mid.length ≤ tail.length) :
    memcpy (done.map some ++ tail) done.length (done ++ mid ++ rest) done.length mid.length
      = .ok ((done ++ mid).map some ++ tail.drop mid.length) := by
  unfold memcpy
  have h1 : done.length + mid.length ≤ (done.map some ++ tail).length ∧
      done.length + mid.length ≤ (done ++ mid ++ rest).length + 1 := by
    simp; omega
  rw [if_pos h1]
  have h2 : (done.map some ++ tail).take done.length = done.map some := by
    simp [List.take_append_eq_append_take]
  have h3 : (done.map some ++ tail).drop (done.length + mid.length) = tail.drop mid.length := by
    simp [List.drop_append_eq_append_drop]
  have h4 : (((done ++ mid ++ rest) ++ [NUL]).drop done.length).take mid.length = mid := by
    simp [List.drop_append_eq_append_drop, List.take_append_eq_append_take]
  rw [h2, h3, h4]
  simp

theorem store_spec (a : Buffer) (x : Option Char) (t : Buffer) (c : Char) :
    store (a ++ x :: t) a.length c = .ok (a ++ some c :: t) := by
  unfold store
  have h1 : a.length < (a ++ x :: t).length := by simp
  rw [if_pos h1]
  simp

theorem strchr_spec (done rest : List Char) (c : Char) :
    strchr (done ++ rest) done.length c = .ok (scan_char c rest done.length) := by
  unfold strchr
  simp

/-! ## The loop of `H5Lexists_wrapper` -/

theorem loop_body_last (lib : Lib) (location_id lapl_id : hid_t) (done rest : List Char)
    (tail : Buffer) (s : LoopState) (hrest : '/' ∉ rest)
    (hbuf : s.temp_name = done.map some ++ tail) (htail : tail.length = rest.length + 1)
    (hidx : s.name_index = done.length) :
    loop_body lib location_id (done ++ rest) lapl_id (done ++ rest).length s
      = .ok { status := lib s.hist (.H5Lexists location_id (cstr (done ++ rest)) lapl_id),
              temp_name := (done ++ rest).map some ++ [some NUL],
              slash_position := none,
              name_index := done.length + rest.length,
              component_length := rest.length,
              hist := s.hist ++ [.H5Lexists location_id (cstr (done ++ rest)) lapl_id] } := by
  obtain ⟨x, hx⟩ : ∃ x, tail.drop rest.length = [x] := by
    have hl : (tail.drop rest.length).length = 1 := by simp [htail]
    match htd : tail.drop rest.length, hl with
    | [x], _ => exact ⟨x, rfl⟩
  have hscan : scan_char '/' rest done.length = none := (scan_char_none _ _ _).2 hrest
  have hsub : size_sub (done ++ rest).length done.length = .ok rest.length := by
    simp [size_sub]
  have hcpy : memcpy (done.map some ++ tail) done.length (done ++ rest) done.length rest.length
      = .ok ((done ++ rest).map some ++ [x]) := by
    have := memcpy_spec done rest [] tail (by omega)
    simpa [hx] using this
  have hst : store ((done ++ rest).map some ++ [x]) (done.length + rest.length) NUL
      = .ok ((done ++ rest).map some ++ [some NUL]) := by
    have := store_spec ((done ++ rest).map some) x [] NUL
    simpa using this
  have hrd : read_cstr ((done ++ rest).map some ++ [some NUL]) = .ok (cstr (done ++ rest)) :=
    read_cstr_map _ _
  unfold loop_body
  rw [hidx, strchr_spec, hscan, hbuf]
  simp only [bind, Except.bind, hsub, hcpy, hst, hrd, invoke, pure, Except.pure]

theorem loop_body_slash (lib : Lib) (location_id lapl_id : hid_t) (done mid rest : List Char)
    (tail : Buffer) (s : LoopState) (hmid : '/' ∉ mid)
    (hbuf : s.temp_name = done.map some ++ tail)
    (htail : tail.length = (mid ++ '/' :: rest).length + 1)
    (hidx : s.name_index = done.length) :
    loop_body lib location_id (done ++ (mid ++ '/' :: rest)) lapl_id
        (done ++ (mid ++ '/' :: rest)).length s
      = .ok { status := lib s.hist (.H5Lexists location_id (cstr (done ++ mid ++ ['/'])) lapl_id),
              temp_name := (done ++ mid ++ ['/']).map some
                ++ some NUL :: tail.drop (mid.length + 2),
              slash_position := some (done.length + mid.length),
              name_index := done.length + (mid.length + 1),
              component_length := mid.length + 1,
              hist := s.hist ++ [.H5Lexists location_id (cstr (done ++ mid ++ ['/'])) lapl_id] } := by
  obtain ⟨x, hx⟩ : ∃ x, tail.drop (mid.length + 1) = x :: tail.drop (mid.length + 2) := by
    have hlt : mid.length + 1 < tail.length := by simp at htail; omega
    exact ⟨tail.get ⟨mid.length + 1, hlt⟩, by
      rw [List.drop_eq_getElem_cons hlt]; rfl⟩
  have hscan : scan_char '/' (mid ++ '/' :: rest) done.length = some (done.length + mid.length) :=
    scan_char_found _ _ _ _ hmid
  have hsub : size_sub (done.length + mid.length) done.length = .ok mid.length := by
    simp [size_sub]
  have hcpy : memcpy (done.map some ++ tail) done.length (done ++ (mid ++ '/' :: rest))
      done.length (mid.length + 1)
      = .ok ((done ++ mid ++ ['/']).map some ++ x :: tail.drop (mid.length + 2)) := by
    have := memcpy_spec done (mid ++ ['/']) rest tail (by simp at htail ⊢; omega)
    simpa [hx] using this
  have hst : store ((done ++ mid ++ ['/']).map some ++ x :: tail.drop (mid.length + 2))
      (done.length + (mid.length + 1)) NUL
      = .ok ((done ++ mid ++ ['/']).map some ++ some NUL :: tail.drop (mid.length + 2)) := by
    have := store_spec ((done ++ mid ++ ['/']).map some) x (tail.drop (mid.length + 2)) NUL
    simpa [Nat.add_assoc] using this
  have hrd : read_cstr ((done ++ mid ++ ['/']).map some ++ some NUL :: tail.drop (mid.length + 2))
      = .ok (cstr (done ++ mid ++ ['/'])) := read_cstr_map _ _
  unfold loop_body
  rw [hidx, strchr_spec, hscan, hbuf]
  simp only [bind, Except.bind, Except.map, hsub, hcpy, hst, hrd, invoke, pure, Except.pure]

theorem loop_spec (lib : Lib) (location_id lapl_id : hid_t) (name : List Char) (fuel : Nat) :
    ∀ (done rest : List Char) (tail : Buffer) (s : LoopState), name = done ++ rest →
      s.temp_name = done.map some ++ tail → tail.length = rest.length + 1 →
      s.name_index = done.length → rest.count '/' < fuel →
      ∃ s', loop lib location_id name lapl_id name.length fuel s = .ok s' ∧
        (s'.status, s'.hist) = run_checks lib location_id lapl_id
          ((heads_from done rest ++ [name]).map cstr) s.status s.hist := by
  induction fuel with
  | zero => intro _ _ _ _ _ _ _ _ h; omega
  | succ fuel ih =>
    intro done rest tail s hname hbuf htail hidx hfuel
    by_cases hmem : '/' ∈ rest
    · obtain ⟨mid, rest', hrest, hmid⟩ := List.eq_append_cons_of_mem hmem
      subst hrest
      have hbody := loop_body_slash lib location_id lapl_id done mid rest' tail s hmid hbuf
        htail hidx
      rw [← hname] at hbody
      unfold loop
      simp only [bind, Except.bind, hbody, pure, Except.pure]
      simp only [heads_from_slash done mid rest' hmid, List.map_cons, List.cons_append,
        run_checks, invoke]
      by_cases hneg : lib s.hist (.H5Lexists location_id (cstr (done ++ mid ++ ['/'])) lapl_id) < 0
      · simp only [hneg, if_true]
        exact ⟨_, rfl, rfl⟩
      · simp only [hneg, if_false, Option.isSome_some, if_true]
        have hcount : rest'.count '/' < fuel := by
          simp [List.count_append] at hfuel
          omega
        obtain ⟨s', h1, h2⟩ := ih (done ++ mid ++ ['/']) rest' (some NUL :: tail.drop (mid.length + 2))
          { status := lib s.hist (.H5Lexists location_id (cstr (done ++ mid ++ ['/'])) lapl_id),
            temp_name := (done ++ mid ++ ['/']).map some ++ some NUL :: tail.drop (mid.length + 2),
            slash_position := some (done.length + mid.length),
            name_index := done.length + (mid.length + 1),
            component_length := mid.length + 1,
            hist := s.hist ++ [.H5Lexists location_id (cstr (done ++ mid ++ ['/'])) lapl_id] }
          (by simp [hname]) rfl (by simp at htail ⊢; omega) (by simp) hcount
        exact ⟨s', h1, h2⟩
    · have hbody := loop_body_last lib location_id lapl_id done rest tail s hmem hbuf htail hidx
      rw [← hname] at hbody
      unfold loop
      simp only [bind, Except.bind, hbody, pure, Except.pure]
      simp only [heads_from_no_slash done rest hmem, List.nil_append, List.map_cons, List.map_nil,
        run_checks, invoke]
      by_cases hneg : lib s.hist (.H5Lexists location_id (cstr name) lapl_id) < 0
      · simp only [hneg, if_true]
        exact ⟨_, rfl, rfl⟩
      · simp only [hneg, if_false, Option.isSome_none, Bool.false_eq_true]
        exact ⟨_, rfl, rfl⟩

theorem heads_from_eq (done rest : List Char) :
    heads_from done rest
      = ((List.range rest.length).filter (fun i => decide (rest[i]? = some '/'))).map
          (fun i => done ++ rest.take (i + 1)) := by
  induction rest generalizing done with
  | nil => simp [heads_from]
  | cons c rest ih =>
    rw [List.length_cons, List.range_succ_eq_map, List.filter_cons]
    by_cases hc : c = '/'
    · simp [heads_from, hc, List.filter_map, ih, List.map_map, Function.comp_def]
    · simp [heads_from, hc, List.filter_map, ih, List.map_map, Function.comp_def]

theorem slash_heads_eq (name : List Char) : slash_heads name = heads_from [] name := by
  rw [heads_from_eq]; simp [slash_heads]

theorem heads_from_length (done rest : List Char) :
    (heads_from done rest).length = rest.count '/' := by
  induction rest generalizing done with
  | nil => simp [heads_from]
  | cons c rest ih =>
    by_cases hc : c = '/'
    · simp [heads_from, hc, ih]
    · simp [heads_from, hc, ih, List.count_cons]

theorem cstr_of_no_nul (s : List Char) (h : NUL ∉ s) : cstr s = s := by
  unfold cstr
  rw [List.takeWhile_eq_self_iff]
  intro c hc
  simp
  rintro rfl
  exact h hc

theorem heads_from_split (done rest : List Char) :
    ∀ h ∈ heads_from done rest, ∃ t, done ++ rest = h ++ t := by
  induction rest generalizing done with
  | nil => simp [heads_from]
  | cons c rest ih =>
    intro h hh
    by_cases hc : c = '/'
    · simp [heads_from, hc] at hh
      rcases hh with rfl | hh
      · exact ⟨rest, by simp [hc]⟩
      · obtain ⟨t, ht⟩ := ih (done ++ ['/']) h hh
        exact ⟨t, by simpa [hc] using ht⟩
    · simp [heads_from, hc] at hh
      obtain ⟨t, ht⟩ := ih (done ++ [c]) h hh
      exact ⟨t, by simpa using ht⟩

theorem map_cstr_checks (name : List Char) (h : NUL ∉ name) :
    (heads_from [] name ++ [name]).map cstr = heads_from [] name ++ [name] := by
  have : ∀ s ∈ heads_from [] name ++ [name], cstr s = s := by
    intro s hs
    apply cstr_of_no_nul
    rw [List.mem_append] at hs
    rcases hs with hs | hs
    · obtain ⟨t, ht⟩ := heads_from_split [] name s hs
      intro hn
      apply h
      simp at ht
      rw [ht]
      simp [hn]
    · simp at hs; rw [hs]; exact h
  calc (heads_from [] name ++ [name]).map cstr
      = (heads_from [] name ++ [name]).map id := List.map_congr_left this
    _ = _ := by simp

theorem checked_strings_append (a b : List Call) :
    checked_strings (a ++ b) = checked_strings a ++ checked_strings b := by
  simp [checked_strings, List.filterMap_append]

theorem checked_strings_map (loc lapl : hid_t) (cs : List (List Char)) :
    checked_strings (cs.map (fun s => Call.H5Lexists loc s lapl)) = cs := by
  induction cs with
  | nil => simp [checked_strings]
  | cons c cs ih =>
    simp [checked_strings] at ih ⊢
    exact ih

/-- The calls `run_checks` adds are existence checks of an initial part of its list. -/
theorem run_checks_trace (lib : Lib) (loc lapl : hid_t) (checks : List (List Char)) :
    ∀ (st : hid_t) (hist : List Call), ∃ cs post, checks = cs ++ post ∧
      (run_checks lib loc lapl checks st hist).2
        = hist ++ cs.map (fun s => Call.H5Lexists loc s lapl) := by
  induction checks with
  | nil => intro st hist; exact ⟨[], [], rfl, by simp [run_checks]⟩
  | cons c checks ih =>
    intro st hist
    simp only [run_checks, invoke]
    by_cases hneg : lib hist (.H5Lexists loc c lapl) < 0
    · simp only [hneg, if_true]
      exact ⟨[c], checks, rfl, by simp⟩
    · simp only [hneg, if_false]
      obtain ⟨cs, post, h1, h2⟩ := ih (lib hist (.H5Lexists loc c lapl))
        (hist ++ [.H5Lexists loc c lapl])
      exact ⟨c :: cs, post, by simp [h1], by simp [h2]⟩

/-- With an oracle that depends on the checked string only: the checks made are
an initial part of the list, a negative answer ends them, they are all made when
none is negative, and the status is the answer to the last one. -/
theorem run_checks_oracle (lib : Lib) (loc lapl : hid_t) (f : List Char → Int)
    (hf : ∀ h s, lib h (.H5Lexists loc s lapl) = f s) (checks : List (List Char)) :
    ∀ (st : hid_t) (hist : List Call), ∃ cs post, checks = cs ++ post ∧
      (run_checks lib loc lapl checks st hist).2
        = hist ++ cs.map (fun s => Call.H5Lexists loc s lapl) ∧
      (∀ pre s post2, cs = pre ++ s :: post2 → f s < 0 → post2 = []) ∧
      ((∀ s ∈ cs, 0 ≤ f s) → post = []) ∧
      (checks ≠ [] → cs ≠ []) ∧
      (∀ s, cs.getLast? = some s → (run_checks lib loc lapl checks st hist).1 = f s) := by
  induction checks with
  | nil =>
    intro st hist
    refine ⟨[], [], rfl, by simp [run_checks], ?_, ?_, ?_, ?_⟩ <;> simp
  | cons c checks ih =>
    intro st hist
    simp only [run_checks, invoke, hf]
    by_cases hneg : f c < 0
    · simp only [hneg, if_true]
      refine ⟨[c], checks, rfl, by simp, ?_, ?_, by simp, by simp⟩
      · intro pre s post2 h _
        cases pre with
        | nil => simp at h; exact h.2
        | cons p pre => simp at h
      · intro h
        have := h c (by simp)
        omega
    · simp only [hneg, if_false]
      obtain ⟨cs, post, h1, h2, h3, h4, h5, h6⟩ := ih (f c) (hist ++ [.H5Lexists loc c lapl])
      refine ⟨c :: cs, post, by simp [h1], by simp [h2], ?_, ?_, by simp, ?_⟩
      · intro pre s post2 h hs
        cases pre with
        | nil =>
          simp at h
          rw [← h.1] at hs
          exact absurd hs hneg
        | cons p pre =>
          simp at h
          exact h3 pre s post2 h.2 hs
      · intro h
        exact h4 (fun s hs => h s (by simp [hs]))
      · intro s hs
        cases cs with
        | nil =>
          simp at hs
          subst hs
          have : checks = [] := by
            by_contra hne
            exact h5 hne rfl
          subst this
          simp [run_checks]
        | cons x xs =>
          rw [List.getLast?_cons_cons] at hs
          exact h6 s hs

theorem wrapper_null (lib : Lib) (loc lapl : hid_t) (name : List Char) (hist : List Call)
    (hm : lib hist (.malloc (name.length + 1)) = 0) :
    H5Lexists_wrapper lib loc name lapl hist = .ok (-1, hist ++ [.malloc (name.length + 1)]) := by
  simp [H5Lexists_wrapper, invoke, hm, pure, Except.pure]

theorem wrapper_eq (lib : Lib) (loc lapl : hid_t) (name : List Char) (hist : List Call)
    (hm : lib hist (.malloc (name.length + 1)) ≠ 0) :
    H5Lexists_wrapper lib loc name lapl hist
      = .ok ((run_checks lib loc lapl ((heads_from [] name ++ [name]).map cstr) (-1)
                (hist ++ [.malloc (name.length + 1)])).1,
             (run_checks lib loc lapl ((heads_from [] name ++ [name]).map cstr) (-1)
                (hist ++ [.malloc (name.length + 1)])).2
               ++ [.free (lib hist (.malloc (name.length + 1)))]) := by
  obtain ⟨s', h1, h2⟩ := loop_spec lib loc lapl name (name.length + 1) [] name
    (List.replicate (name.length + 1) none) (loop_entry name.length (hist ++ [.malloc (name.length + 1)]))
    rfl rfl (by simp) rfl (by have := @List.count_le_length _ _ '/' name; omega)
  simp only [H5Lexists_wrapper, invoke, hm, if_false, bind, Except.bind, h1, pure, Except.pure]
  have h3 := congrArg Prod.fst h2
  have h4 := congrArg Prod.snd h2
  simp only [loop_entry] at h3 h4
  rw [← h3, ← h4]

theorem drop_history (hist new : List Call) : (hist ++ new).drop hist.length = new := by
  simp

/-- What `H5Lexists_wrapper` does under an oracle that depends on the checked
string only. -/
theorem wrapper_oracle (lib : Lib) (loc lapl : hid_t) (f : List Char → Int)
    (hf : ∀ h s, lib h (.H5Lexists loc s lapl) = f s) (name : List Char) (hist : List Call) :
    ∃ st tr cs post, H5Lexists_wrapper lib loc name lapl hist = .ok (st, tr) ∧
      checked_strings (tr.drop hist.length) = cs ∧
      (lib hist (.malloc (name.length + 1)) = 0 → cs = [] ∧ st = -1) ∧
      (lib hist (.malloc (name.length + 1)) ≠ 0 →
        (heads_from [] name ++ [name]).map cstr = cs ++ post ∧ cs ≠ [] ∧
        ((∀ s ∈ cs, 0 ≤ f s) → post = [])) ∧
      (∀ pre s post2, cs = pre ++ s :: post2 → f s < 0 → post2 = []) ∧
      (∀ s, cs.getLast? = some s → st = f s) := by
  by_cases hm : lib hist (.malloc (name.length + 1)) = 0
  · refine ⟨-1, hist ++ [.malloc (name.length + 1)], [], [], wrapper_null lib loc lapl name hist hm,
      ?_, ?_, ?_, ?_, ?_⟩
    · simp [checked_strings]
    · simp
    · intro h; exact absurd hm h
    · intro pre s post2 h; simp at h
    · simp
  · obtain ⟨cs, post, h1, h2, h3, h4, h5, h6⟩ := run_checks_oracle lib loc lapl f hf
      ((heads_from [] name ++ [name]).map cstr) (-1) (hist ++ [.malloc (name.length + 1)])
    refine ⟨_, _, cs, post, wrapper_eq lib loc lapl name hist hm, ?_, ?_, ?_, h3, h6⟩
    · rw [h2]
      simp only [List.append_assoc, drop_history, checked_strings_append, checked_strings_map]
      simp [checked_strings]
    · intro h; exact absurd h hm
    · intro _
      exact ⟨h1, h5 (by simp), h4⟩

/-! ## Claims about `H5Lexists_wrapper` -/

/-- C3 (amended): when the working buffer is allocated and every existence check
the wrapper performs returns a non-negative value, the wrapper returns exactly the
answer of the oracle for the full path; when the allocation fails it returns -1
without performing any check. -/
theorem H5Lexists_wrapper_full_path_answer (lib : Lib) (f : List Char → Int)
    (location_id lapl_id : hid_t) (name : List Char) (hist : List Call)
    (hnul : NUL ∉ name)
    (hf : ∀ h s, lib h (.H5Lexists location_id s lapl_id) = f s) :
    ∃ st tr, H5Lexists_wrapper lib location_id name lapl_id hist = .ok (st, tr) ∧
      (lib hist (.malloc (name.length + 1)) ≠ 0 →
        (∀ s ∈ checked_strings (tr.drop hist.length), 0 ≤ f s) → st = f name) ∧
      (lib hist (.malloc (name.length + 1)) = 0 →
        st = -1 ∧ checked_strings (tr.drop hist.length) = []) := by
  obtain ⟨st, tr, cs, post, h1, h2, h3, h4, _, h6⟩ :=
    wrapper_oracle lib location_id lapl_id f hf name hist
  refine ⟨st, tr, h1, ?_, ?_⟩
  · intro hm hall
    obtain ⟨h7, _, h9⟩ := h4 hm
    rw [h2] at hall
    have hpost := h9 hall
    rw [hpost, List.append_nil, map_cstr_checks name hnul] at h7
    exact h6 name (by rw [← h7]; simp)
  · intro hm
    rw [h2]
    exact ⟨(h3 hm).2, (h3 hm).1⟩

/-- C3 (witness): the path `a/b` under an oracle answering 1, with a successful
allocation. -/
theorem H5Lexists_wrapper_full_path_answer_witness :
    NUL ∉ ['a', '/', 'b'] ∧
    (∀ (h : List Call) (s : List Char),
      oracleLib (fun _ => 1) 7 h (.H5Lexists 5 s 0) = (fun _ => 1) s) ∧
    ∃ st tr, H5Lexists_wrapper (oracleLib (fun _ => 1) 7) 5 ['a', '/', 'b'] 0 [] = .ok (st, tr) ∧
      (oracleLib (fun _ => 1) 7 [] (.malloc (['a', '/', 'b'].length + 1)) ≠ 0 →
        (∀ s ∈ checked_strings (tr.drop ([] : List Call).length),
          0 ≤ (fun _ => (1 : Int)) s) → st = (fun _ => 1) ['a', '/', 'b']) ∧
      (oracleLib (fun _ => 1) 7 [] (.malloc (['a', '/', 'b'].length + 1)) = 0 →
        st = -1 ∧ checked_strings (tr.drop ([] : List Call).length) = []) :=
  ⟨by decide, fun _ _ => rfl,
    H5Lexists_wrapper_full_path_answer (oracleLib (fun _ => 1) 7) (fun _ => 1) 5 0
      ['a', '/', 'b'] [] (by decide) (fun _ _ => rfl)⟩

/-- C3 (counterexample): with a failed allocation the wrapper performs no check,
so none of its checks is negative, and it returns -1 although the oracle answers 1
for the full path `a`. -/
theorem H5Lexists_wrapper_full_path_answer_fails :
    H5Lexists_wrapper (oracleLib (fun _ => 1) 0) 5 ['a'] 0 [] = .ok (-1, [.malloc 2]) ∧
    (∀ s ∈ checked_strings ([Call.malloc 2].drop ([] : List Call).length),
      0 ≤ (fun _ => (1 : Int)) s) ∧
    (-1 : Int) ≠ (fun _ => (1 : Int)) ['a'] :=
  ⟨rfl, by decide, by decide⟩

/-- C4 (amended): when the working buffer is allocated and no check errors, the
strings passed to the existence check are the heads of the path that end at a `/`,
shortest first, followed by the whole path: one check per `/` plus one, and a
single check of the whole path when it has no `/`; when the allocation fails no
check is made. -/
theorem H5Lexists_wrapper_check_sequence (lib : Lib) (f : List Char → Int)
    (location_id lapl_id : hid_t) (name : List Char) (hist : List Call)
    (hnul : NUL ∉ name)
    (hf : ∀ h s, lib h (.H5Lexists location_id s lapl_id) = f s) :
    ∃ st tr, H5Lexists_wrapper lib location_id name lapl_id hist = .ok (st, tr) ∧
      (lib hist (.malloc (name.length + 1)) ≠ 0 →
        (∀ s ∈ checked_strings (tr.drop hist.length), 0 ≤ f s) →
        checked_strings (tr.drop hist.length) = slash_heads name ++ [name] ∧
        (checked_strings (tr.drop hist.length)).length = name.count '/' + 1 ∧
        ('/' ∉ name → checked_strings (tr.drop hist.length) = [name])) ∧
      (lib hist (.malloc (name.length + 1)) = 0 →
        checked_strings (tr.drop hist.length) = []) := by
  obtain ⟨st, tr, cs, post, h1, h2, h3, h4, _, _⟩ :=
    wrapper_oracle lib location_id lapl_id f hf name hist
  refine ⟨st, tr, h1, ?_, ?_⟩
  · intro hm hall
    obtain ⟨h7, _, h9⟩ := h4 hm
    rw [h2] at hall ⊢
    have hpost := h9 hall
    rw [hpost, List.append_nil, map_cstr_checks name hnul] at h7
    rw [← h7, slash_heads_eq]
    refine ⟨rfl, by simp [heads_from_length], ?_⟩
    intro hno
    rw [heads_from_no_slash [] name hno]
    rfl
  · intro hm
    rw [h2]
    exact (h3 hm).1

/-- C4 (witness): the path `/a/b` under an oracle answering 1; its checks are
`/`, `/a/` and `/a/b`. -/
theorem H5Lexists_wrapper_check_sequence_witness :
    NUL ∉ ['/', 'a', '/', 'b'] ∧
    (∀ (h : List Call) (s : List Char),
      oracleLib (fun _ => 1) 7 h (.H5Lexists 5 s 0) = (fun _ => 1) s) ∧
    checked_strings ([Call.malloc 5, .H5Lexists 5 ['/'] 0, .H5Lexists 5 ['/', 'a', '/'] 0,
      .H5Lexists 5 ['/', 'a', '/', 'b'] 0, .free 7].drop ([] : List Call).length)
      = slash_heads ['/', 'a', '/', 'b'] ++ [['/', 'a', '/', 'b']] := by
  refine ⟨by decide, fun _ _ => rfl, ?_⟩
  obtain ⟨st, tr, h1, h2, _⟩ := H5Lexists_wrapper_check_sequence (oracleLib (fun _ => 1) 7)
    (fun _ => 1) 5 0 ['/', 'a', '/', 'b'] [] (by decide) (fun _ _ => rfl)
  have h3 : H5Lexists_wrapper (oracleLib (fun _ => 1) 7) 5 ['/', 'a', '/', 'b'] 0 []
      = .ok (1, [Call.malloc 5, .H5Lexists 5 ['/'] 0, .H5Lexists 5 ['/', 'a', '/'] 0,
          .H5Lexists 5 ['/', 'a', '/', 'b'] 0, .free 7]) := rfl
  rw [h3] at h1
  injection h1 with h1
  injection h1 with _ h1
  subst h1
  exact (h2 (by decide) (fun _ _ => by decide)).1

/-- C4 (counterexample): with a failed allocation the path `a`, which has no `/`,
is not checked at all, instead of once. -/
theorem H5Lexists_wrapper_check_sequence_fails :
    H5Lexists_wrapper (oracleLib (fun _ => 1) 0) 5 ['a'] 0 [] = .ok (-1, [.malloc 2]) ∧
    checked_strings ([Call.malloc 2].drop ([] : List Call).length) = [] ∧
    checked_strings ([Call.malloc 2].drop ([] : List Call).length)
      ≠ slash_heads ['a'] ++ [['a']] ∧
    (checked_strings ([Call.malloc 2].drop ([] : List Call).length)).length
      ≠ List.count '/' ['a'] + 1 :=
  ⟨rfl, by decide, by decide, by decide⟩

/-- C5: if some existence check made by the wrapper returns a negative value, no
further check follows it and the wrapper returns that negative value. -/
theorem H5Lexists_wrapper_stops_at_error (lib : Lib) (f : List Char → Int)
    (location_id lapl_id : hid_t) (name : List Char) (hist : List Call)
    (hf : ∀ h s, lib h (.H5Lexists location_id s lapl_id) = f s) :
    ∃ st tr, H5Lexists_wrapper lib location_id name lapl_id hist = .ok (st, tr) ∧
      ∀ pre s post, checked_strings (tr.drop hist.length) = pre ++ s :: post → f s < 0 →
        post = [] ∧ st = f s ∧ st < 0 := by
  obtain ⟨st, tr, cs, post, h1, h2, _, _, h5, h6⟩ :=
    wrapper_oracle lib location_id lapl_id f hf name hist
  refine ⟨st, tr, h1, ?_⟩
  intro pre s post2 hcs hneg
  rw [h2] at hcs
  have hp := h5 pre s post2 hcs hneg
  subst hp
  have hst := h6 s (by rw [hcs]; simp)
  exact ⟨rfl, hst, by rw [hst]; exact hneg⟩

/-- C5 (witness): the path `a/b/c` under an oracle that errors on `a/`; only `a/`
is checked and -1 is returned. -/
theorem H5Lexists_wrapper_stops_at_error_witness :
    (∀ (h : List Call) (s : List Char),
      oracleLib (fun s => if s = ['a', '/'] then -1 else 1) 7 h (.H5Lexists 5 s 0)
        = (fun s => if s = ['a', '/'] then -1 else 1) s) ∧
    H5Lexists_wrapper (oracleLib (fun s => if s = ['a', '/'] then -1 else 1) 7) 5
      ['a', '/', 'b', '/', 'c'] 0 []
      = .ok (-1, [.malloc 6, .H5Lexists 5 ['a', '/'] 0, .free 7]) ∧
    ∃ st tr, H5Lexists_wrapper (oracleLib (fun s => if s = ['a', '/'] then -1 else 1) 7) 5
        ['a', '/', 'b', '/', 'c'] 0 [] = .ok (st, tr) ∧
      ∀ pre s post, checked_strings (tr.drop ([] : List Call).length) = pre ++ s :: post →
        (fun s => if s = ['a', '/'] then (-1 : Int) else 1) s < 0 →
        post = [] ∧ st = (fun s => if s = ['a', '/'] then (-1 : Int) else 1) s ∧ st < 0 :=
  ⟨fun _ _ => rfl, rfl,
    H5Lexists_wrapper_stops_at_error (oracleLib (fun s => if s = ['a', '/'] then -1 else 1) 7)
      (fun s => if s = ['a', '/'] then -1 else 1) 5 0 ['a', '/', 'b', '/', 'c'] []
      (fun _ _ => rfl)⟩

/-- C6 (evaluation): for the path `a/b`, the check of the parent `a/` answers
not-found (0), the wrapper goes on to check `a/b`, whose check errors, and returns
-1 instead of 0. -/
theorem H5Lexists_wrapper_missing_parent :
    (fun s => if s = ['a', '/'] then (0 : Int) else -1) ['a', '/'] = 0 ∧
    H5Lexists_wrapper (oracleLib (fun s => if s = ['a', '/'] then 0 else -1) 7) 5
      ['a', '/', 'b'] 0 []
      = .ok (-1, [.malloc 4, .H5Lexists 5 ['a', '/'] 0, .H5Lexists 5 ['a', '/', 'b'] 0,
          .free 7]) :=
  ⟨by decide, rfl⟩

/-- At the head of the loop the buffer holds the first `name_index` characters
of the path, and `name_index` does not exceed the length of the path. -/
theorem at_loop_head_shape (lib : Lib) (loc lapl : hid_t) (name : List Char) (hist : List Call)
    (s : LoopState) (h : AtLoopHead lib loc name lapl hist s) :
    ∃ done rest tail, name = done ++ rest ∧ s.temp_name = done.map some ++ tail ∧
      tail.length = rest.length + 1 ∧ s.name_index = done.length := by
  induction h with
  | entry => exact ⟨[], name, List.replicate (name.length + 1) none, rfl, rfl, by simp, rfl⟩
  | again s t _ hbody _ hslash ih =>
    obtain ⟨done, rest, tail, hname, hbuf, htail, hidx⟩ := ih
    by_cases hmem : '/' ∈ rest
    · obtain ⟨mid, rest2, hrest, hmid⟩ := List.eq_append_cons_of_mem hmem
      subst hrest
      have hb := loop_body_slash lib loc lapl done mid rest2 tail s hmid hbuf htail hidx
      rw [← hname, hbody] at hb
      injection hb with hb
      subst hb
      refine ⟨done ++ mid ++ ['/'], rest2, some NUL :: tail.drop (mid.length + 2),
        by simp [hname], rfl, ?_, by simp⟩
      simp at htail ⊢
      omega
    · have hb := loop_body_last lib loc lapl done rest tail s hmem hbuf htail hidx
      rw [← hname, hbody] at hb
      injection hb with hb
      subst hb
      simp at hslash

/-- C10: whenever the body of the scanning loop is entered, the buffer has
`L + 1` bytes, the body completes without a fault (no copy or store outside the
buffer, no wrap-around), `name_index + component_length ≤ L`, the string handed to
the existence check is the head of the path of length `name_index +
component_length`, and `name_index` grows strictly when a `/` is found; the loop
ends within (number of `/`) + 1 iterations. -/
theorem H5Lexists_wrapper_loop_invariant (lib : Lib) (location_id lapl_id : hid_t)
    (name : List Char) (hist : List Call) (s : LoopState) (hnul : NUL ∉ name)
    (h : AtLoopHead lib location_id name lapl_id hist s) :
    s.temp_name.length = name.length + 1 ∧
    (∃ t, loop_body lib location_id name lapl_id name.length s = .ok t ∧
      t.temp_name.length = name.length + 1 ∧
      t.component_length = (match t.slash_position with
        | none => name.length - s.name_index
        | some p => p - s.name_index + 1) ∧
      s.name_index + t.component_length ≤ name.length ∧
      t.name_index = s.name_index + t.component_length ∧
      t.hist = s.hist ++ [.H5Lexists location_id (name.take t.name_index) lapl_id] ∧
      (t.slash_position.isSome = true → s.name_index < t.name_index)) ∧
    (∃ t, loop lib location_id name lapl_id name.length (name.count '/' + 1)
      (loop_entry name.length hist) = .ok t) := by
  obtain ⟨done, rest, tail, hname, hbuf, htail, hidx⟩ :=
    at_loop_head_shape lib location_id lapl_id name hist s h
  refine ⟨by rw [hbuf, hname]; simp [htail]; omega, ?_, ?_⟩
  · by_cases hmem : '/' ∈ rest
    · obtain ⟨mid, rest2, hrest, hmid⟩ := List.eq_append_cons_of_mem hmem
      subst hrest
      have hb := loop_body_slash lib location_id lapl_id done mid rest2 tail s hmid hbuf htail hidx
      rw [← hname] at hb
      have hc : cstr (done ++ mid ++ ['/']) = name.take (done.length + (mid.length + 1)) := by
        rw [cstr_of_no_nul]
        · rw [hname]
          have : done ++ (mid ++ '/' :: rest2) = (done ++ mid ++ ['/']) ++ rest2 := by simp
          rw [this, List.take_left']
          simp
        · intro hn
          apply hnul
          rw [hname]
          simp at hn ⊢
          tauto
      refine ⟨_, hb, ?_, ?_, ?_, ?_, ?_, ?_⟩
      · simp at htail ⊢; rw [hname]; simp; omega
      · simp [hidx]
      · simp [hidx, hname]
      · simp [hidx]
      · simp only [hc]
      · intro _; simp [hidx]
    · have hb := loop_body_last lib location_id lapl_id done rest tail s hmem hbuf htail hidx
      rw [← hname] at hb
      refine ⟨_, hb, ?_, ?_, ?_, ?_, ?_, ?_⟩
      · rw [hname]; simp; omega
      · simp [hidx, hname]
      · simp [hidx, hname]
      · simp [hidx]
      · have : name.take (done.length + rest.length) = name := by
          rw [hname]; simp
        simp only [this, cstr_of_no_nul name hnul]
      · intro hs; simp at hs
  · obtain ⟨t, ht, _⟩ := loop_spec lib location_id lapl_id name (name.count '/' + 1) [] name
      (List.replicate (name.length + 1) none) (loop_entry name.length hist)
      rfl rfl (by simp) rfl (by omega)
    exact ⟨t, ht⟩

/-- C10 (witness): the entry state of the loop for the path `a/b`. -/
theorem H5Lexists_wrapper_loop_invariant_witness :
    NUL ∉ ['a', '/', 'b'] ∧
    (loop_entry ['a', '/', 'b'].length []).temp_name.length = ['a', '/', 'b'].length + 1 ∧
    ∃ t, loop (oracleLib (fun _ => 1) 7) 5 ['a', '/', 'b'] 0 ['a', '/', 'b'].length
      (List.count '/' ['a', '/', 'b'] + 1) (loop_entry ['a', '/', 'b'].length []) = .ok t :=
  ⟨by decide,
    (H5Lexists_wrapper_loop_invariant (oracleLib (fun _ => 1) 7) 5 0 ['a', '/', 'b'] []
      (loop_entry ['a', '/', 'b'].length []) (by decide) (AtLoopHead.entry)).1,
    (H5Lexists_wrapper_loop_invariant (oracleLib (fun _ => 1) 7) 5 0 ['a', '/', 'b'] []
      (loop_entry ['a', '/', 'b'].length []) (by decide) (AtLoopHead.entry)).2.2⟩

/-! ## Claim about `lookup_native_data_type` -/

theorem lookup_of_nodup_keys {α β : Type} [DecidableEq α] (l : List (α × β))
    (hl : (l.map Prod.fst).Nodup) (k : α) (v : β) (h : (k, v) ∈ l) :
    l.lookup k = some v := by
  induction l with
  | nil => simp at h
  | cons p l ih =>
    obtain ⟨a, b⟩ := p
    simp only [List.map_cons, List.nodup_cons] at hl
    rw [List.mem_cons] at h
    rcases h with h | h
    · injection h with h1 h2
      subst h1; subst h2
      simp [List.lookup]
    · have hne : k ≠ a := by
        rintro rfl
        exact hl.1 (List.mem_map_of_mem Prod.fst h)
      have : (k == a) = false := by simpa using hne
      simp only [List.lookup, this]
      exact ih hl.2 h

theorem lookup_of_not_key {α β : Type} [DecidableEq α] (l : List (α × β)) (k : α)
    (h : k ∉ l.map Prod.fst) : l.lookup k = none := by
  induction l with
  | nil => rfl
  | cons p l ih =>
    obtain ⟨a, b⟩ := p
    simp only [List.map_cons, List.mem_cons, not_or] at h
    have : (k == a) = false := by simpa using h.1
    simp only [List.lookup, this]
    exact ih h.2

theorem lookup_pair (a b v t : hid_t) (l : List (hid_t × hid_t)) :
    (List.lookup t ((a, v) :: (b, v) :: l)).getD t
      = if t = a ∨ t = b then v else (List.lookup t l).getD t := by
  by_cases h1 : t = a
  · simp [List.lookup, h1]
  · by_cases h2 : t = b
    · have : (t == a) = false := by simpa using h1
      subst h2
      simp [List.lookup, this]
    · have e1 : (t == a) = false := by simpa using h1
      have e2 : (t == b) = false := by simpa using h2
      simp [List.lookup, h1, h2, e1, e2]

theorem lookup_native_eq_table (K : H5Consts) (t : hid_t) :
    lookup_native_data_type K t = table_lookup K t := by
  unfold lookup_native_data_type table_lookup native_type_table
  simp only [lookup_pair]
  rfl

theorem table_values_native (K : H5Consts) :
    ∀ p ∈ native_type_table K, p.2 ∈ native_tags K := by
  simp [native_type_table, native_tags]

/-- C7: `lookup_native_data_type` is the lookup in the reference table with the
tag itself as default; a tag outside the 20 standard tags is returned unchanged;
and when the 30 tags are pairwise distinct, each standard tag yields the native tag
the table pairs it with (one of the 10 native tags) and each native tag yields
itself. -/
theorem lookup_native_data_type_table (K : H5Consts) (t : hid_t) :
    lookup_native_data_type K t = table_lookup K t ∧
    (t ∉ standard_tags K → lookup_native_data_type K t = t) ∧
    ((standard_tags K ++ native_tags K).Nodup →
      (∀ n, (t, n) ∈ native_type_table K → lookup_native_data_type K t = n) ∧
      (t ∈ standard_tags K → lookup_native_data_type K t ∈ native_tags K) ∧
      (t ∈ native_tags K → lookup_native_data_type K t = t)) := by
  have hstd : ∀ n, (standard_tags K).Nodup → (t, n) ∈ native_type_table K →
      lookup_native_data_type K t = n := by
    intro n hnd hmem
    rw [lookup_native_eq_table, table_lookup,
      lookup_of_nodup_keys (native_type_table K) hnd t n hmem]
    rfl
  have hother : t ∉ standard_tags K → lookup_native_data_type K t = t := by
    intro hnot
    rw [lookup_native_eq_table, table_lookup, lookup_of_not_key (native_type_table K) t hnot]
    rfl
  refine ⟨lookup_native_eq_table K t, hother, ?_⟩
  intro hnd
  have hnd1 : (standard_tags K).Nodup := (List.nodup_append.1 hnd).1
  have hdisj : ∀ x ∈ standard_tags K, x ∉ native_tags K := fun x hx hx2 =>
    (List.nodup_append.1 hnd).2.2 hx hx2
  refine ⟨fun n hmem => hstd n hnd1 hmem, ?_, ?_⟩
  · intro ht
    obtain ⟨p, hp, hpt⟩ := List.mem_map.1 ht
    obtain ⟨a, n⟩ := p
    simp only at hpt
    subst hpt
    rw [hstd n hnd1 hp]
    exact table_values_native K (a, n) hp
  · intro ht
    exact hother (fun hs => hdisj t hs ht)

/-- C7 (witness): the tag of little-endian 32-bit integers among distinct tags. -/
theorem lookup_native_data_type_table_witness :
    (standard_tags demoConsts ++ native_tags demoConsts).Nodup ∧
    (demoConsts.H5T_STD_I32LE, demoConsts.H5T_NATIVE_INT32) ∈ native_type_table demoConsts ∧
    lookup_native_data_type demoConsts demoConsts.H5T_STD_I32LE = demoConsts.H5T_NATIVE_INT32 :=
  ⟨by decide, by decide,
    ((lookup_native_data_type_table demoConsts demoConsts.H5T_STD_I32LE).2.2 (by decide)).1
      demoConsts.H5T_NATIVE_INT32 (by decide)⟩

/-! ## Claims about `open_dataset` and `export_data` -/

/-- For every library, `H5Lexists_wrapper` returns, and the calls it adds to the
history are `malloc`, `H5Lexists` and `free` calls. -/
theorem wrapper_total (lib : Lib) (loc lapl : hid_t) (name : List Char) (hist : List Call) :
    ∃ st new, H5Lexists_wrapper lib loc name lapl hist = .ok (st, hist ++ new) ∧
      ∀ c ∈ new, is_wrapper_call c = true := by
  by_cases hm : lib hist (.malloc (name.length + 1)) = 0
  · exact ⟨-1, [.malloc (name.length + 1)], wrapper_null lib loc lapl name hist hm, by
      simp [is_wrapper_call]⟩
  · obtain ⟨cs, post, _, h2⟩ := run_checks_trace lib loc lapl
      ((heads_from [] name ++ [name]).map cstr) (-1) (hist ++ [.malloc (name.length + 1)])
    refine ⟨(run_checks lib loc lapl ((heads_from [] name ++ [name]).map cstr) (-1)
      (hist ++ [.malloc (name.length + 1)])).1, [.malloc (name.length + 1)] ++ cs.map (fun s => Call.H5Lexists loc s lapl)
      ++ [.free (lib hist (.malloc (name.length + 1)))], ?_, ?_⟩
    · rw [wrapper_eq lib loc lapl name hist hm, h2]
      simp
    · intro c hc
      simp only [List.mem_append, List.mem_singleton, List.mem_map] at hc
      rcases hc with (hc | ⟨s, _, hc⟩) | hc <;> subst hc <;> rfl

/-- The creation part of `open_dataset`: the calls it makes and its result. -/
theorem open_dataset_create_spec (K : H5Consts) (lib : Lib) (file_id : hid_t)
    (data_path : List Char) (data_type : hid_t) (nd : Int) (dims : List Nat) (h : List Call) :
    ∃ ret tail, open_dataset_create K lib file_id data_path data_type nd dims h = (ret, h ++ tail) ∧
      (∀ c ∈ tail, is_delete c = false ∧ is_close c = false) ∧
      (ret < 0 → ret = -1) ∧
      (0 ≤ ret → ∃ lcpl space,
        space = lib (h ++ [.H5Pcreate K.H5P_LINK_CREATE,
          .H5Pset_create_intermediate_group lcpl 1]) (.H5Screate_simple nd dims) ∧
        tail = [.H5Pcreate K.H5P_LINK_CREATE, .H5Pset_create_intermediate_group lcpl 1,
          .H5Screate_simple nd dims,
          .H5Dcreate2 file_id data_path data_type space lcpl K.H5P_DEFAULT K.H5P_DEFAULT,
          .H5Sclose space, .H5Pclose lcpl] ∧
        ret = lib (h ++ [.H5Pcreate K.H5P_LINK_CREATE,
          .H5Pset_create_intermediate_group lcpl 1, .H5Screate_simple nd dims])
          (.H5Dcreate2 file_id data_path data_type space lcpl K.H5P_DEFAULT K.H5P_DEFAULT)) := by
  simp only [open_dataset_create, invoke, List.append_assoc, List.singleton_append]
  split
  · refine ⟨_, _, rfl, ?_, fun _ => rfl, fun h0 => absurd h0 (by decide)⟩
    intro c hc
    simp at hc
    rcases hc with hc | hc | hc <;> subst hc <;> exact ⟨rfl, rfl⟩
  · split
    · refine ⟨_, _, rfl, ?_, fun _ => rfl, fun h0 => absurd h0 (by decide)⟩
      intro c hc
      simp at hc
      rcases hc with hc | hc | hc | hc <;> subst hc <;> exact ⟨rfl, rfl⟩
    · rename_i h1 h2
      refine ⟨_, _, rfl, ?_, fun h0 => absurd h0 h2, fun _ => ⟨_, _, rfl, rfl, rfl⟩⟩
      intro c hc
      simp at hc
      rcases hc with hc | hc | hc | hc | hc | hc <;> subst hc <;> exact ⟨rfl, rfl⟩

/-- The calls of `open_dataset` and its result, by the status of the validator. -/
theorem open_dataset_spec (K : H5Consts) (lib : Lib) (file_id : hid_t)
    (data_path : List Char) (data_type : hid_t) (nd : Int) (dims : List Nat)
    (hist : List Call) :
    ∃ status checks ret rest,
      H5Lexists_wrapper lib file_id data_path K.H5P_DEFAULT hist = .ok (status, hist ++ checks) ∧
      open_dataset K lib file_id data_path data_type nd dims hist
        = .ok (ret, hist ++ checks ++ rest) ∧
      (∀ c ∈ checks, is_wrapper_call c = true) ∧
      (∀ c ∈ rest, is_close c = false) ∧
      (ret < 0 → ret = -1) ∧
      (status < 0 → ret = -1 ∧ rest = []) ∧
      (0 < status → ∃ rest2, rest = .H5Ldelete file_id data_path K.H5P_DEFAULT :: rest2 ∧
        (∀ c ∈ rest2, is_delete c = false) ∧
        (lib (hist ++ checks) (.H5Ldelete file_id data_path K.H5P_DEFAULT) < 0 →
          ret = -1 ∧ rest2 = [])) ∧
      (status = 0 → ∀ c ∈ rest, is_delete c = false) ∧
      (0 ≤ ret → ∃ del lcpl space,
        rest = del ++ [.H5Pcreate K.H5P_LINK_CREATE, .H5Pset_create_intermediate_group lcpl 1,
          .H5Screate_simple nd dims,
          .H5Dcreate2 file_id data_path data_type space lcpl K.H5P_DEFAULT K.H5P_DEFAULT,
          .H5Sclose space, .H5Pclose lcpl] ∧
        space = lib (hist ++ checks ++ del ++ [.H5Pcreate K.H5P_LINK_CREATE,
          .H5Pset_create_intermediate_group lcpl 1]) (.H5Screate_simple nd dims) ∧
        ret = lib (hist ++ checks ++ del ++ [.H5Pcreate K.H5P_LINK_CREATE,
          .H5Pset_create_intermediate_group lcpl 1, .H5Screate_simple nd dims])
          (.H5Dcreate2 file_id data_path data_type space lcpl K.H5P_DEFAULT K.H5P_DEFAULT)) := by
  obtain ⟨status, checks, hw, hchecks⟩ := wrapper_total lib file_id K.H5P_DEFAULT data_path hist
  by_cases hneg : status < 0
  · refine ⟨status, checks, -1, [], hw, ?_, hchecks, by simp, fun _ => rfl,
      fun _ => ⟨rfl, rfl⟩, fun h => absurd h (lt_asymm hneg),
      fun h => absurd hneg (by rw [h]; decide), fun h => absurd h (by decide)⟩
    simp [open_dataset, hw, bind, Except.bind, hneg, pure, Except.pure]
  · by_cases hpos : 0 < status
    · by_cases hdel : lib (hist ++ checks) (.H5Ldelete file_id data_path K.H5P_DEFAULT) < 0
      · refine ⟨status, checks, -1, [.H5Ldelete file_id data_path K.H5P_DEFAULT], hw, ?_, hchecks,
          by simp [is_close], fun _ => rfl, fun h => absurd h hneg,
          fun _ => ⟨[], rfl, by simp, fun _ => ⟨rfl, rfl⟩⟩,
          fun h => absurd hpos (by rw [h]; decide), fun h => absurd h (by decide)⟩
        simp [open_dataset, hw, bind, Except.bind, hneg, hpos, hdel, invoke, pure, Except.pure]
      · obtain ⟨ret, tail, hc1, hc2, hc3, hc4⟩ := open_dataset_create_spec K lib file_id data_path
          data_type nd dims (hist ++ checks ++ [.H5Ldelete file_id data_path K.H5P_DEFAULT])
        refine ⟨status, checks, ret, .H5Ldelete file_id data_path K.H5P_DEFAULT :: tail, hw, ?_,
          hchecks, ?_, hc3, fun h => absurd h hneg,
          fun _ => ⟨tail, rfl, fun c hc => (hc2 c hc).1, fun h => absurd h hdel⟩,
          fun h => absurd hpos (by rw [h]; decide), ?_⟩
        · simp only [open_dataset, hw, bind, Except.bind, hneg, hpos, hdel, invoke, pure,
            Except.pure, if_false, if_true, gt_iff_lt]
          rw [hc1]
          simp
        · intro c hc
          rw [List.mem_cons] at hc
          rcases hc with hc | hc
          · subst hc; rfl
          · exact (hc2 c hc).2
        · intro hret
          obtain ⟨lcpl, space, h1, h2, h3⟩ := hc4 hret
          exact ⟨[.H5Ldelete file_id data_path K.H5P_DEFAULT], lcpl, space, by simp [h2],
            by simpa using h1, by simpa using h3⟩
    · obtain ⟨ret, tail, hc1, hc2, hc3, hc4⟩ := open_dataset_create_spec K lib file_id data_path
        data_type nd dims (hist ++ checks)
      refine ⟨status, checks, ret, tail, hw, ?_, hchecks, fun c hc => (hc2 c hc).2, hc3,
        fun h => absurd h hneg, fun h => absurd h hpos, fun _ c hc => (hc2 c hc).1, ?_⟩
      · simp only [open_dataset, hw, bind, Except.bind, hneg, hpos, pure,
          Except.pure, if_false, gt_iff_lt]
        rw [hc1]
      · intro hret
        obtain ⟨lcpl, space, h1, h2, h3⟩ := hc4 hret
        exact ⟨[], lcpl, space, by simp [h2], by simpa using h1, by simpa using h3⟩

/-- The creation part of `open_dataset`, by the answers of `H5Screate_simple` and
`H5Dcreate2`. -/
theorem open_dataset_create_eq (K : H5Consts) (lib : Lib) (file_id : hid_t)
    (data_path : List Char) (data_type : hid_t) (nd : Int) (dims : List Nat) (h : List Call)
    (lcpl space dset : hid_t)
    (hl : lcpl = lib h (.H5Pcreate K.H5P_LINK_CREATE))
    (hs : space = lib (h ++ [.H5Pcreate K.H5P_LINK_CREATE,
      .H5Pset_create_intermediate_group lcpl 1]) (.H5Screate_simple nd dims))
    (hd : dset = lib (h ++ [.H5Pcreate K.H5P_LINK_CREATE,
      .H5Pset_create_intermediate_group lcpl 1, .H5Screate_simple nd dims])
      (.H5Dcreate2 file_id data_path data_type space lcpl K.H5P_DEFAULT K.H5P_DEFAULT)) :
    open_dataset_create K lib file_id data_path data_type nd dims h
      = if space < 0 then
          (-1, h ++ [.H5Pcreate K.H5P_LINK_CREATE, .H5Pset_create_intermediate_group lcpl 1,
            .H5Screate_simple nd dims])
        else if dset < 0 then
          (-1, h ++ [.H5Pcreate K.H5P_LINK_CREATE, .H5Pset_create_intermediate_group lcpl 1,
            .H5Screate_simple nd dims,
            .H5Dcreate2 file_id data_path data_type space lcpl K.H5P_DEFAULT K.H5P_DEFAULT])
        else
          (dset, h ++ [.H5Pcreate K.H5P_LINK_CREATE, .H5Pset_create_intermediate_group lcpl 1,
            .H5Screate_simple nd dims,
            .H5Dcreate2 file_id data_path data_type space lcpl K.H5P_DEFAULT K.H5P_DEFAULT,
            .H5Sclose space, .H5Pclose lcpl]) := by
  subst hl
  simp only [open_dataset_create, invoke, List.append_assoc, List.singleton_append,
    List.cons_append, List.nil_append] at hs hd ⊢
  rw [← hs, ← hd]

/-- The result of `open_dataset`, given the result of the validator. -/
theorem open_dataset_eq (K : H5Consts) (lib : Lib) (file_id : hid_t)
    (data_path : List Char) (data_type : hid_t) (nd : Int) (dims : List Nat)
    (hist h1 : List Call) (status : hid_t)
    (hw : H5Lexists_wrapper lib file_id data_path K.H5P_DEFAULT hist = .ok (status, h1)) :
    open_dataset K lib file_id data_path data_type nd dims hist
      = .ok (if status < 0 then (-1, h1)
          else if 0 < status then
            (if lib h1 (.H5Ldelete file_id data_path K.H5P_DEFAULT) < 0 then
              (-1, h1 ++ [.H5Ldelete file_id data_path K.H5P_DEFAULT])
            else open_dataset_create K lib file_id data_path data_type nd dims
              (h1 ++ [.H5Ldelete file_id data_path K.H5P_DEFAULT]))
          else open_dataset_create K lib file_id data_path data_type nd dims h1) := by
  simp only [open_dataset, hw, bind, Except.bind, invoke, pure, Except.pure, gt_iff_lt]
  by_cases c1 : status < 0
  · simp only [c1, if_true]
  · simp only [c1, if_false]
    by_cases c2 : 0 < status
    · simp only [c2, if_true]
      by_cases c3 : lib h1 (.H5Ldelete file_id data_path K.H5P_DEFAULT) < 0
      · simp only [c3, if_true]
      · simp only [c3, if_false]
    · simp only [c2, if_false]

/-- C8: `open_dataset` first runs the path validator on the target path (whose
calls are no deletion and no creation); on a negative validator status it returns
-1 with no further call; on a positive status its next call deletes the link at
the target path, and a failed deletion returns -1 with no further call; on a zero
status it issues no deletion.  After a non-negative validator status and, for a
positive one, a successful deletion, it calls `H5Pcreate`,
`H5Pset_create_intermediate_group` and `H5Screate_simple` for the requested rank
and dimension lengths; when that answers a non-negative dataspace it calls
`H5Dcreate2` for the requested file, path and element type on that dataspace, and
when that answers a non-negative handle it releases the dataspace and the property
list and returns that handle; a negative dataspace or dataset answer returns -1
with no further call.  A non-negative result is therefore always the handle
`H5Dcreate2` returned for the requested path, type, rank and lengths. -/
theorem open_dataset_protocol (K : H5Consts) (lib : Lib) (file_id : hid_t)
    (data_path : List Char) (data_type : hid_t) (number_dimensions : Int)
    (dimensions : List Nat) (hist : List Call) :
    ∃ status checks ret rest,
      H5Lexists_wrapper lib file_id data_path K.H5P_DEFAULT hist = .ok (status, hist ++ checks) ∧
      open_dataset K lib file_id data_path data_type number_dimensions dimensions hist
        = .ok (ret, hist ++ checks ++ rest) ∧
      (∀ c ∈ checks, is_delete c = false ∧ is_dataset_create c = false) ∧
      (status < 0 → ret = -1 ∧ rest = []) ∧
      (0 < status → ∃ rest2, rest = .H5Ldelete file_id data_path K.H5P_DEFAULT :: rest2 ∧
        (∀ c ∈ rest2, is_delete c = false) ∧
        (lib (hist ++ checks) (.H5Ldelete file_id data_path K.H5P_DEFAULT) < 0 →
          ret = -1 ∧ rest2 = [])) ∧
      (status = 0 → ∀ c ∈ rest, is_delete c = false) ∧
      (0 ≤ ret → ∃ del lcpl space,
        rest = del ++ [.H5Pcreate K.H5P_LINK_CREATE, .H5Pset_create_intermediate_group lcpl 1,
          .H5Screate_simple number_dimensions dimensions,
          .H5Dcreate2 file_id data_path data_type space lcpl K.H5P_DEFAULT K.H5P_DEFAULT,
          .H5Sclose space, .H5Pclose lcpl] ∧
        space = lib (hist ++ checks ++ del ++ [.H5Pcreate K.H5P_LINK_CREATE,
          .H5Pset_create_intermediate_group lcpl 1])
          (.H5Screate_simple number_dimensions dimensions) ∧
        ret = lib (hist ++ checks ++ del ++ [.H5Pcreate K.H5P_LINK_CREATE,
          .H5Pset_create_intermediate_group lcpl 1,
          .H5Screate_simple number_dimensions dimensions])
          (.H5Dcreate2 file_id data_path data_type space lcpl K.H5P_DEFAULT K.H5P_DEFAULT)) ∧
      (∀ del lcpl space dset,
        (status = 0 ∧ del = [] ∨
          0 < status ∧ del = [.H5Ldelete file_id data_path K.H5P_DEFAULT] ∧
            0 ≤ lib (hist ++ checks) (.H5Ldelete file_id data_path K.H5P_DEFAULT)) →
        lcpl = lib (hist ++ checks ++ del) (.H5Pcreate K.H5P_LINK_CREATE) →
        space = lib (hist ++ checks ++ del ++ [.H5Pcreate K.H5P_LINK_CREATE,
          .H5Pset_create_intermediate_group lcpl 1])
          (.H5Screate_simple number_dimensions dimensions) →
        dset = lib (hist ++ checks ++ del ++ [.H5Pcreate K.H5P_LINK_CREATE,
          .H5Pset_create_intermediate_group lcpl 1,
          .H5Screate_simple number_dimensions dimensions])
          (.H5Dcreate2 file_id data_path data_type space lcpl K.H5P_DEFAULT K.H5P_DEFAULT) →
        (space < 0 → ret = -1 ∧
          rest = del ++ [.H5Pcreate K.H5P_LINK_CREATE,
            .H5Pset_create_intermediate_group lcpl 1,
            .H5Screate_simple number_dimensions dimensions]) ∧
        (0 ≤ space → dset < 0 → ret = -1 ∧
          rest = del ++ [.H5Pcreate K.H5P_LINK_CREATE,
            .H5Pset_create_intermediate_group lcpl 1,
            .H5Screate_simple number_dimensions dimensions,
            .H5Dcreate2 file_id data_path data_type space lcpl K.H5P_DEFAULT K.H5P_DEFAULT]) ∧
        (0 ≤ space → 0 ≤ dset → ret = dset ∧
          rest = del ++ [.H5Pcreate K.H5P_LINK_CREATE,
            .H5Pset_create_intermediate_group lcpl 1,
            .H5Screate_simple number_dimensions dimensions,
            .H5Dcreate2 file_id data_path data_type space lcpl K.H5P_DEFAULT K.H5P_DEFAULT,
            .H5Sclose space, .H5Pclose lcpl])) := by
  obtain ⟨status, checks, ret, rest, h1, h2, h3, _, _, h6, h7, h8, h9⟩ :=
    open_dataset_spec K lib file_id data_path data_type number_dimensions dimensions hist
  refine ⟨status, checks, ret, rest, h1, h2, ?_, h6, h7, h8, h9, ?_⟩
  · intro c hc
    have := h3 c hc
    cases c <;> first | exact ⟨rfl, rfl⟩ | simp [is_wrapper_call] at this
  · intro del lcpl space dset hdel hl hs hd
    have heq := open_dataset_eq K lib file_id data_path data_type number_dimensions dimensions
      hist (hist ++ checks) status h1
    rw [h2] at heq
    injection heq with heq
    have hcreate := open_dataset_create_eq K lib file_id data_path data_type number_dimensions
      dimensions (hist ++ checks ++ del) lcpl space dset hl hs hd
    have hbranch : (ret, hist ++ checks ++ rest)
        = open_dataset_create K lib file_id data_path data_type number_dimensions dimensions
            (hist ++ checks ++ del) := by
      rcases hdel with ⟨hz, hnil⟩ | ⟨hpos, hone, hok⟩
      · subst hnil
        have c1 : ¬ status < 0 := by rw [hz]; decide
        have c2 : ¬ 0 < status := by rw [hz]; decide
        rw [if_neg c1, if_neg c2] at heq
        simpa using heq
      · subst hone
        have c1 : ¬ status < 0 := not_lt.2 (le_of_lt hpos)
        rw [if_neg c1, if_pos hpos, if_neg (not_lt.2 hok)] at heq
        exact heq
    rw [hcreate] at hbranch
    refine ⟨?_, ?_, ?_⟩
    · intro hneg
      rw [if_pos hneg] at hbranch
      injection hbranch with e1 e2
      refine ⟨e1, ?_⟩
      rw [List.append_assoc (hist ++ checks) del] at e2
      exact List.append_cancel_left e2
    · intro hok hneg
      rw [if_neg (not_lt.2 hok), if_pos hneg] at hbranch
      injection hbranch with e1 e2
      refine ⟨e1, ?_⟩
      rw [List.append_assoc (hist ++ checks) del] at e2
      exact List.append_cancel_left e2
    · intro hok hok2
      rw [if_neg (not_lt.2 hok), if_neg (not_lt.2 hok2)] at hbranch
      injection hbranch with e1 e2
      refine ⟨e1, ?_⟩
      rw [List.append_assoc (hist ++ checks) del] at e2
      exact List.append_cancel_left e2

/-- Evaluation: the target `v` exists, its link is deleted, the dataset is created
and its handle (1) returned. -/
theorem open_dataset_eval_success :
    open_dataset demoConsts (failLib (fun _ => false)) 1 ['v'] demoConsts.H5T_IEEE_F64LE
      2 [2, 2] []
      = .ok (1, [.malloc 2, .H5Lexists 1 ['v'] 0, .free 1, .H5Ldelete 1 ['v'] 0,
          .H5Pcreate 100, .H5Pset_create_intermediate_group 1 1, .H5Screate_simple 2 [2, 2],
          .H5Dcreate2 1 ['v'] 20 1 1 0 0, .H5Sclose 1, .H5Pclose 1]) := rfl

/-- Evaluation: the target `v` does not exist; no deletion is issued and the
dataset is created. -/
theorem open_dataset_eval_fresh :
    open_dataset demoConsts (oracleLib (fun _ => 0) 7) 1 ['v'] demoConsts.H5T_STD_I32LE
      1 [3] []
      = .ok (1, [.malloc 2, .H5Lexists 1 ['v'] 0, .free 7,
          .H5Pcreate 100, .H5Pset_create_intermediate_group 1 1, .H5Screate_simple 1 [3],
          .H5Dcreate2 1 ['v'] 10 1 1 0 0, .H5Sclose 1, .H5Pclose 1]) := rfl

theorem open_file_spec (K : H5Consts) (lib : Lib) (file_path : List Char) (hist : List Call) :
    ∃ fid new, open_file K lib file_path hist = (fid, hist ++ new) ∧ new ≠ [] ∧
      ∀ c ∈ new, is_close c = false := by
  unfold open_file invoke
  by_cases h : lib hist (.access file_path (K.R_OK ||| K.W_OK)) = 0
  · refine ⟨lib (hist ++ [.access file_path (K.R_OK ||| K.W_OK)])
        (.H5Fopen file_path K.H5F_ACC_RDWR K.H5P_DEFAULT),
      [.access file_path (K.R_OK ||| K.W_OK),
      .H5Fopen file_path K.H5F_ACC_RDWR K.H5P_DEFAULT], ?_, by simp, ?_⟩
    · simp [h]
    · intro c hc
      simp at hc
      rcases hc with hc | hc <;> subst hc <;> rfl
  · refine ⟨lib (hist ++ [.access file_path (K.R_OK ||| K.W_OK)])
        (.H5Fcreate file_path K.H5F_ACC_TRUNC K.H5P_DEFAULT K.H5P_DEFAULT),
      [.access file_path (K.R_OK ||| K.W_OK),
      .H5Fcreate file_path K.H5F_ACC_TRUNC K.H5P_DEFAULT K.H5P_DEFAULT], ?_, by simp, ?_⟩
    · simp [h]
    · intro c hc
      simp at hc
      rcases hc with hc | hc <;> subst hc <;> rfl

theorem write_dataset_spec (K : H5Consts) (lib : Lib) (dataset_id data_type : hid_t) (data : Nat)
    (hist : List Call) :
    ∃ w new, write_dataset K lib dataset_id data_type data hist = (w, hist ++ new) ∧ new ≠ [] ∧
      (∀ c ∈ new, is_close c = false) ∧ (w = 0 ∨ w = -1) := by
  unfold write_dataset invoke
  by_cases h : lib hist (.H5Dwrite dataset_id (lookup_native_data_type K data_type)
      K.H5S_ALL K.H5S_ALL K.H5P_DEFAULT data) < 0
  · refine ⟨-1, [.H5Dwrite dataset_id (lookup_native_data_type K data_type)
      K.H5S_ALL K.H5S_ALL K.H5P_DEFAULT data], by simp [h], by simp, ?_, Or.inr rfl⟩
    intro c hc
    simp at hc
    subst hc; rfl
  · refine ⟨0, [.H5Dwrite dataset_id (lookup_native_data_type K data_type)
      K.H5S_ALL K.H5S_ALL K.H5P_DEFAULT data], by simp [h], by simp, ?_, Or.inl rfl⟩
    intro c hc
    simp at hc
    subst hc; rfl

/-- The stages of `export_data`, the calls each adds, and the result. -/
theorem export_data_spec (K : H5Consts) (lib : Lib) (file_path data_path : List Char)
    (data : Nat) (data_type : hid_t) (nd : Int) (dims : List Nat) (hist : List Call) :
    ∃ fid did w new1 new2 new3,
      open_file K lib file_path hist = (fid, hist ++ new1) ∧
      open_dataset K lib fid data_path data_type nd dims (hist ++ new1)
        = .ok (did, hist ++ new1 ++ new2) ∧
      write_dataset K lib did data_type data (hist ++ new1 ++ new2)
        = (w, hist ++ new1 ++ new2 ++ new3) ∧
      (new1 ≠ [] ∧ new2 ≠ [] ∧ new3 ≠ []) ∧
      (∀ c ∈ new1 ++ new2 ++ new3, is_close c = false) ∧
      export_data K lib file_path data_path data data_type nd dims hist
        = .ok (if fid < 0 then (-1, hist ++ new1)
            else if did < 0 then (-1, hist ++ new1 ++ new2)
            else if w < 0 then (-1, hist ++ new1 ++ new2 ++ new3)
            else (0, hist ++ new1 ++ new2 ++ new3 ++ [.H5Dclose did, .H5Fclose fid])) := by
  obtain ⟨fid, new1, hf1, hf2, hf3⟩ := open_file_spec K lib file_path hist
  obtain ⟨status, checks, did, rest, hd1, hd2, hd3, hd4, _⟩ :=
    open_dataset_spec K lib fid data_path data_type nd dims (hist ++ new1)
  obtain ⟨w, new3, hw1, hw2, hw3, _⟩ :=
    write_dataset_spec K lib did data_type data (hist ++ new1 ++ (checks ++ rest))
  have hchecks : checks ≠ [] := by
    intro hnil
    subst hnil
    by_cases hm : lib (hist ++ new1) (.malloc (data_path.length + 1)) = 0
    · rw [wrapper_null lib fid K.H5P_DEFAULT data_path (hist ++ new1) hm] at hd1
      injection hd1 with hd1
      injection hd1 with _ hd1
      simp at hd1
    · obtain ⟨cs, post, _, h2⟩ := run_checks_trace lib fid K.H5P_DEFAULT
        ((heads_from [] data_path ++ [data_path]).map cstr) (-1)
        (hist ++ new1 ++ [.malloc (data_path.length + 1)])
      rw [wrapper_eq lib fid K.H5P_DEFAULT data_path (hist ++ new1) hm, h2] at hd1
      injection hd1 with hd1
      injection hd1 with _ hd1
      simp at hd1
  refine ⟨fid, did, w, new1, checks ++ rest, new3, hf1, ?_, hw1, ⟨hf2, by simp [hchecks], hw2⟩,
    ?_, ?_⟩
  · rw [hd2]; simp
  · intro c hc
    simp only [List.mem_append] at hc
    rcases hc with (hc | hc | hc) | hc
    · exact hf3 c hc
    · have := hd3 c hc
      cases c <;> first | rfl | simp [is_wrapper_call] at this
    · exact hd4 c hc
    · exact hw3 c hc
  · simp only [export_data, hf1, bind, Except.bind, hd2, pure, Except.pure, invoke]
    have e : hist ++ new1 ++ checks ++ rest = hist ++ new1 ++ (checks ++ rest) := by simp
    rw [e, hw1]
    by_cases h1 : fid < 0
    · simp [h1]
    · by_cases h2 : did < 0
      · simp [h1, h2]
      · by_cases h3 : w < 0
        · simp [h1, h2, h3]
        · simp [h1, h2, h3]

/-- C1: `export_data` returns 0 exactly when `open_file`, `open_dataset` and
`write_dataset`, run in this order each on the history left by the one before, all
return a non-negative value, and returns -1 otherwise; each stage makes at least
one call, and the history holds the calls of a stage only when every earlier stage
succeeded. -/
theorem export_data_stages (K : H5Consts) (lib : Lib) (file_path data_path : List Char)
    (data : Nat) (data_type : hid_t) (number_dimensions : Int) (dimensions : List Nat)
    (hist : List Call) :
    ∃ fid did w new1 new2 new3 ret tr,
      open_file K lib file_path hist = (fid, hist ++ new1) ∧
      open_dataset K lib fid data_path data_type number_dimensions dimensions (hist ++ new1)
        = .ok (did, hist ++ new1 ++ new2) ∧
      write_dataset K lib did data_type data (hist ++ new1 ++ new2)
        = (w, hist ++ new1 ++ new2 ++ new3) ∧
      (new1 ≠ [] ∧ new2 ≠ [] ∧ new3 ≠ []) ∧
      export_data K lib file_path data_path data data_type number_dimensions dimensions hist
        = .ok (ret, tr) ∧
      (ret = 0 ↔ 0 ≤ fid ∧ 0 ≤ did ∧ 0 ≤ w) ∧
      (ret ≠ 0 → ret = -1) ∧
      (fid < 0 → tr = hist ++ new1) ∧
      (0 ≤ fid → did < 0 → tr = hist ++ new1 ++ new2) ∧
      (0 ≤ fid → 0 ≤ did → ∃ closes, tr = hist ++ new1 ++ new2 ++ new3 ++ closes ∧
        ∀ c ∈ closes, is_close c = true) := by
  obtain ⟨fid, did, w, new1, new2, new3, h1, h2, h3, h4, _, h6⟩ :=
    export_data_spec K lib file_path data_path data data_type number_dimensions dimensions hist
  by_cases c1 : fid < 0
  · refine ⟨fid, did, w, new1, new2, new3, -1, hist ++ new1, h1, h2, h3, h4, ?_, ?_, fun _ => rfl,
      fun _ => rfl, fun h => absurd c1 (not_lt.2 h), fun h => absurd c1 (not_lt.2 h)⟩
    · rw [h6, if_pos c1]
    · constructor
      · intro h; exact absurd h (by decide)
      · intro h; exact absurd c1 (not_lt.2 h.1)
  · by_cases c2 : did < 0
    · refine ⟨fid, did, w, new1, new2, new3, -1, hist ++ new1 ++ new2, h1, h2, h3, h4, ?_, ?_,
        fun _ => rfl, fun h => absurd h c1, fun _ _ => rfl, fun _ h => absurd c2 (not_lt.2 h)⟩
      · rw [h6, if_neg c1, if_pos c2]
      · constructor
        · intro h; exact absurd h (by decide)
        · intro h; exact absurd c2 (not_lt.2 h.2.1)
    · by_cases c3 : w < 0
      · refine ⟨fid, did, w, new1, new2, new3, -1, hist ++ new1 ++ new2 ++ new3, h1, h2, h3, h4, ?_,
          ?_, fun _ => rfl, fun h => absurd h c1, fun _ h => absurd h c2,
          fun _ _ => ⟨[], by simp, by simp⟩⟩
        · rw [h6, if_neg c1, if_neg c2, if_pos c3]
        · constructor
          · intro h; exact absurd h (by decide)
          · intro h; exact absurd c3 (not_lt.2 h.2.2)
      · refine ⟨fid, did, w, new1, new2, new3, 0,
          hist ++ new1 ++ new2 ++ new3 ++ [.H5Dclose did, .H5Fclose fid], h1, h2, h3, h4, ?_,
          ?_, fun h => absurd rfl h, fun h => absurd h c1, fun _ h => absurd h c2,
          fun _ _ => ⟨[.H5Dclose did, .H5Fclose fid], rfl, by simp [is_close]⟩⟩
        · rw [h6, if_neg c1, if_neg c2, if_neg c3]
        · constructor
          · intro _; exact ⟨not_lt.1 c1, not_lt.1 c2, not_lt.1 c3⟩
          · intro _; rfl

/-- Evaluation: all stages succeed; the history ends with the two close calls. -/
theorem export_data_eval_success :
    export_data demoConsts (failLib (fun _ => false)) ['f'] ['v'] 1000
      demoConsts.H5T_IEEE_F64LE 2 [2, 2] []
      = .ok (0, [.access ['f'] 6, .H5Fcreate ['f'] 2 0 0, .malloc 2, .H5Lexists 1 ['v'] 0,
          .free 1, .H5Ldelete 1 ['v'] 0, .H5Pcreate 100,
          .H5Pset_create_intermediate_group 1 1, .H5Screate_simple 2 [2, 2],
          .H5Dcreate2 1 ['v'] 20 1 1 0 0, .H5Sclose 1, .H5Pclose 1,
          .H5Dwrite 1 30 0 0 0 1000, .H5Dclose 1, .H5Fclose 1]) := rfl

/-- Evaluation: `H5Dwrite` fails; the result is -1 and neither handle is closed. -/
theorem export_data_eval_write_failure :
    export_data demoConsts (failLib is_write) ['f'] ['v'] 1000
      demoConsts.H5T_IEEE_F64LE 2 [2, 2] []
      = .ok (-1, [.access ['f'] 6, .H5Fcreate ['f'] 2 0 0, .malloc 2, .H5Lexists 1 ['v'] 0,
          .free 1, .H5Ldelete 1 ['v'] 0, .H5Pcreate 100,
          .H5Pset_create_intermediate_group 1 1, .H5Screate_simple 2 [2, 2],
          .H5Dcreate2 1 ['v'] 20 1 1 0 0, .H5Sclose 1, .H5Pclose 1,
          .H5Dwrite 1 30 0 0 0 1000]) := rfl

/-- Evaluation: the deletion of the existing link fails; `open_dataset` returns -1
without creating a dataset, and `export_data` returns -1 without a write or a
close. -/
theorem export_data_eval_delete_failure :
    export_data demoConsts (failLib is_delete) ['f'] ['v'] 1000
      demoConsts.H5T_IEEE_F64LE 2 [2, 2] []
      = .ok (-1, [.access ['f'] 6, .H5Fcreate ['f'] 2 0 0, .malloc 2, .H5Lexists 1 ['v'] 0,
          .free 1, .H5Ldelete 1 ['v'] 0]) := rfl

theorem filter_close_nil (l : List Call) (h : ∀ c ∈ l, is_close c = false) :
    l.filter is_close = [] := by
  rw [List.filter_eq_nil_iff]
  intro c hc
  simp [h c hc]

/-- C9: among the calls of one `export_data` call, `H5Dclose` of the dataset
handle followed by `H5Fclose` of the file handle are the last two calls, and the
only close calls, when all three stages succeed; when a stage fails the result is
-1 and there is no `H5Dclose` and no `H5Fclose` call at all. -/
theorem export_data_closes (K : H5Consts) (lib : Lib) (file_path data_path : List Char)
    (data : Nat) (data_type : hid_t) (number_dimensions : Int) (dimensions : List Nat)
    (hist : List Call) :
    ∃ fid did w new1 new2 new3 ret new,
      open_file K lib file_path hist = (fid, hist ++ new1) ∧
      open_dataset K lib fid data_path data_type number_dimensions dimensions (hist ++ new1)
        = .ok (did, hist ++ new1 ++ new2) ∧
      write_dataset K lib did data_type data (hist ++ new1 ++ new2)
        = (w, hist ++ new1 ++ new2 ++ new3) ∧
      export_data K lib file_path data_path data data_type number_dimensions dimensions hist
        = .ok (ret, hist ++ new) ∧
      ((0 ≤ fid ∧ 0 ≤ did ∧ 0 ≤ w) → ret = 0 ∧
        new = new1 ++ new2 ++ new3 ++ [.H5Dclose did, .H5Fclose fid] ∧
        new.filter is_close = [.H5Dclose did, .H5Fclose fid]) ∧
      (¬ (0 ≤ fid ∧ 0 ≤ did ∧ 0 ≤ w) → ret = -1 ∧ new.filter is_close = []) := by
  obtain ⟨fid, did, w, new1, new2, new3, h1, h2, h3, _, h5, h6⟩ :=
    export_data_spec K lib file_path data_path data data_type number_dimensions dimensions hist
  have n1 : ∀ c ∈ new1, is_close c = false := fun c hc => h5 c (by simp [hc])
  have n2 : ∀ c ∈ new1 ++ new2, is_close c = false := fun c hc => h5 c (by
    simp only [List.mem_append] at hc ⊢; tauto)
  by_cases c1 : fid < 0
  · refine ⟨fid, did, w, new1, new2, new3, -1, new1, h1, h2, h3, ?_,
      fun h => absurd c1 (not_lt.2 h.1), fun _ => ⟨rfl, filter_close_nil _ n1⟩⟩
    rw [h6, if_pos c1]
  · by_cases c2 : did < 0
    · refine ⟨fid, did, w, new1, new2, new3, -1, new1 ++ new2, h1, h2, h3, ?_,
        fun h => absurd c2 (not_lt.2 h.2.1), fun _ => ⟨rfl, filter_close_nil _ n2⟩⟩
      rw [h6, if_neg c1, if_pos c2, List.append_assoc]
    · by_cases c3 : w < 0
      · refine ⟨fid, did, w, new1, new2, new3, -1, new1 ++ new2 ++ new3, h1, h2, h3, ?_,
          fun h => absurd c3 (not_lt.2 h.2.2), fun _ => ⟨rfl, filter_close_nil _ h5⟩⟩
        rw [h6, if_neg c1, if_neg c2, if_pos c3]
        simp
      · refine ⟨fid, did, w, new1, new2, new3, 0,
          new1 ++ new2 ++ new3 ++ [.H5Dclose did, .H5Fclose fid], h1, h2, h3, ?_,
          fun _ => ⟨rfl, rfl, ?_⟩, fun h => absurd ⟨not_lt.1 c1, not_lt.1 c2, not_lt.1 c3⟩ h⟩
        · rw [h6, if_neg c1, if_neg c2, if_neg c3]
          simp
        · rw [List.filter_append, filter_close_nil _ h5]
          rfl

theorem to_hsize_of_pos (d : Int) (h0 : 0 < d) (h1 : d < 2 ^ 31) :
    to_hsize d = d.toNat ∧ (d.toNat : Int) = d := by
  unfold to_hsize
  have : d % 2 ^ 64 = d := Int.emod_eq_of_lt (by omega) (by omega)
  rw [this]
  exact ⟨rfl, Int.toNat_of_nonneg (by omega)⟩

/-- C2: for positive `int` dimension lengths, each of the nine entry points
returns what `export_data` returns for the same file path, data path and buffer,
with the little-endian tag of its element type, the rank of its shape, and the
dimension lengths in argument order with their values unchanged. -/
theorem public_entry_points (K : H5Consts) (lib : Lib) (file_path data_path : List Char)
    (data : Nat) (dim1_length dim2_length dim3_length : Int) (hist : List Call)
    (h1 : 0 < dim1_length ∧ dim1_length < 2 ^ 31)
    (h2 : 0 < dim2_length ∧ dim2_length < 2 ^ 31)
    (h3 : 0 < dim3_length ∧ dim3_length < 2 ^ 31) :
    ∃ n1 n2 n3 : Nat, (n1 : Int) = dim1_length ∧ (n2 : Int) = dim2_length ∧
      (n3 : Int) = dim3_length ∧
      h5_export_vector_i32 K lib file_path data_path data dim1_length hist
        = export_data K lib file_path data_path data K.H5T_STD_I32LE 1 [n1] hist ∧
      h5_export_matrix_i32 K lib file_path data_path data dim1_length dim2_length hist
        = export_data K lib file_path data_path data K.H5T_STD_I32LE 2 [n1, n2] hist ∧
      h5_export_volume_i32 K lib file_path data_path data dim1_length dim2_length dim3_length hist
        = export_data K lib file_path data_path data K.H5T_STD_I32LE 3 [n1, n2, n3] hist ∧
      h5_export_vector_f32 K lib file_path data_path data dim1_length hist
        = export_data K lib file_path data_path data K.H5T_IEEE_F32LE 1 [n1] hist ∧
      h5_export_matrix_f32 K lib file_path data_path data dim1_length dim2_length hist
        = export_data K lib file_path data_path data K.H5T_IEEE_F32LE 2 [n1, n2] hist ∧
      h5_export_volume_f32 K lib file_path data_path data dim1_length dim2_length dim3_length hist
        = export_data K lib file_path data_path data K.H5T_IEEE_F32LE 3 [n1, n2, n3] hist ∧
      h5_export_vector_f64 K lib file_path data_path data dim1_length hist
        = export_data K lib file_path data_path data K.H5T_IEEE_F64LE 1 [n1] hist ∧
      h5_export_matrix_f64 K lib file_path data_path data dim1_length dim2_length hist
        = export_data K lib file_path data_path data K.H5T_IEEE_F64LE 2 [n1, n2] hist ∧
      h5_export_volume_f64 K lib file_path data_path data dim1_length dim2_length dim3_length hist
        = export_data K lib file_path data_path data K.H5T_IEEE_F64LE 3 [n1, n2, n3] hist := by
  obtain ⟨a1, b1⟩ := to_hsize_of_pos dim1_length h1.1 h1.2
  obtain ⟨a2, b2⟩ := to_hsize_of_pos dim2_length h2.1 h2.2
  obtain ⟨a3, b3⟩ := to_hsize_of_pos dim3_length h3.1 h3.2
  refine ⟨dim1_length.toNat, dim2_length.toNat, dim3_length.toNat, b1, b2, b3, ?_⟩
  simp only [h5_export_vector_i32, h5_export_matrix_i32, h5_export_volume_i32,
    h5_export_vector_f32, h5_export_matrix_f32, h5_export_volume_f32,
    h5_export_vector_f64, h5_export_matrix_f64, h5_export_volume_f64, a1, a2, a3, and_self]

/-- C2 (witness): lengths 3, 2 and 4; the vector of three `int`s is exported with
shape `[3]` and succeeds under a library whose calls all return 1. -/
theorem public_entry_points_witness :
    ((0 : Int) < 3 ∧ (3 : Int) < 2 ^ 31) ∧
    h5_export_vector_i32 demoConsts (oracleLib (fun _ => 1) 7) ['f'] ['/', 'v'] 1000 3 []
      = export_data demoConsts (oracleLib (fun _ => 1) 7) ['f'] ['/', 'v'] 1000
          demoConsts.H5T_STD_I32LE 1 [3] [] := by
  refine ⟨by decide, ?_⟩
  obtain ⟨n1, _, _, e1, _, _, h, _⟩ := public_entry_points demoConsts (oracleLib (fun _ => 1) 7)
    ['f'] ['/', 'v'] 1000 3 2 4 [] (by decide) (by decide) (by decide)
  have : n1 = 3 := by exact_mod_cast e1
  subst this
  exact h

end HDF5Export
